import Mathlib

/-!
Session manager of tpm2-abrmd (src/session-manager.c)

A shallow embedding of the session registry: two GLib hash tables over the
same session objects (one keyed by the connection descriptor, one keyed by the
session id), an admission limit, and the operations insert, lookup by
descriptor, lookup by id, remove, size, is_full and set_fds.

Conventions of the embedding.

* A C function that touches the manager becomes a Lean function from the
  manager to an `Outcome`: the manager afterwards, the C return value, and the
  list of externally visible actions it performed, in program order (mutex
  lock and unlock, calls on either hash table, `g_object_ref`,
  `g_object_unref` run as a value-destroy notify, `g_signal_emit`).
* `g_error` aborts the process: a function that reaches it returns `none`.
* `pthread_mutex_lock` and `pthread_mutex_unlock` are taken to succeed
  (return 0); their failure branches, which end in `g_error`, are not part of
  the embedding.
* `guint` and `gint` values are `Nat` and `Int`; no arithmetic is performed on
  them by this file's functions, only comparison.
-/

namespace SessionRegistry

/-! ## Session objects -/

/-- Modelled from the spec: the session object (session-data.h is not among
the sources). The registry sees an opaque reference-counted object with two
stable keys and a receive descriptor; `obj` is the identity (address) of the
object, so two distinct objects may carry equal keys. -/
structure SessionData where
  obj : Nat
  receive_fd : Int
  id : Int
deriving DecidableEq, Repr

/-- Modelled from the spec: `key_by_descriptor()`, the key under which a
session is stored in the descriptor index. It is the same value as the receive
descriptor in this design. -/
def session_data_key_fd (session : SessionData) : Int := session.receive_fd

/-- Modelled from the spec: `key_by_id()`, the key under which a session is
stored in the id index. -/
def session_data_key_id (session : SessionData) : Int := session.id

/-- Modelled from the spec: `receive_descriptor()`. -/
def session_data_receive_fd (session : SessionData) : Int := session.receive_fd

/-! ## Observable actions -/

/-- The two indices of the manager. -/
inductive Table where
  | session_from_fd_table
  | session_from_id_table
deriving DecidableEq, Repr

/-- Externally visible actions, recorded in program order. `object_ref none`
is a call of `g_object_ref` on a NULL pointer. -/
inductive Event where
  | mutex_lock
  | mutex_unlock
  | hash_table (table : Table)
  | object_ref (object : Option SessionData)
  | object_unref (object : SessionData)
  | signal_emit (session : SessionData)
deriving DecidableEq, Repr

/-! ## GLib hash tables -/

/-- The value-destroy notify given to `g_hash_table_new_full`: `NULL` or
`g_object_unref`. -/
inductive GDestroyNotify where
  | null
  | g_object_unref
deriving DecidableEq, Repr

/-- A GLib hash table from integer keys to session objects, holding at most
one entry per key. Keys are compared by value (`g_int_equal`,
`g_int64_equal`). The value-destroy notify is fixed when the table is created,
so it is an index of the type. -/
structure GHashTable (value_destroy_func : GDestroyNotify) where
  nodes : AList (fun _ : Int => SessionData)

/-- The actions of running the value-destroy notify of a table on a value that
leaves the table. -/
def value_destroy (value_destroy_func : GDestroyNotify) (old : Option SessionData) :
    List Event :=
  match value_destroy_func, old with
  | GDestroyNotify.g_object_unref, some value => [Event.object_unref value]
  | _, _ => []

/-- GLib `g_hash_table_new_full`: an empty table. -/
def g_hash_table_new_full (d : GDestroyNotify) : GHashTable d := ⟨∅⟩

/-- GLib `g_hash_table_size`: the number of entries. -/
def g_hash_table_size {d : GDestroyNotify} (t : GHashTable d) : Nat :=
  t.nodes.entries.length

/-- GLib `g_hash_table_lookup`: the value stored under the key, `none` for NULL. -/
def g_hash_table_lookup {d : GDestroyNotify} (t : GHashTable d) (key : Int) :
    Option SessionData :=
  t.nodes.lookup key

/-- GLib `g_hash_table_insert`: store the value under the key. When the key is
already present its value is replaced and the value-destroy notify runs on the
old value. -/
def g_hash_table_insert {d : GDestroyNotify} (t : GHashTable d) (key : Int)
    (value : SessionData) : GHashTable d × List Event :=
  (⟨t.nodes.insert key value⟩, value_destroy d (t.nodes.lookup key))

/-- GLib `g_hash_table_remove`: delete the entry under the key. Returns whether the
key was found; the value-destroy notify runs on the removed value. -/
def g_hash_table_remove {d : GDestroyNotify} (t : GHashTable d) (key : Int) :
    Bool × GHashTable d × List Event :=
  match t.nodes.lookup key with
  | none => (false, t, [])
  | some value => (true, ⟨t.nodes.erase key⟩, value_destroy d (some value))

/-- GLib `g_hash_table_foreach`: call the function on every entry, threading the
user data. -/
def g_hash_table_foreach {d : GDestroyNotify} {α : Type} (t : GHashTable d)
    (func : Int → SessionData → α → α) (user_data : α) : α :=
  t.nodes.entries.foldl (fun acc e => func e.1 e.2 acc) user_data

/-! ## The session manager -/

/-- The manager object. `session_manager_new` creates the descriptor index
without a value-destroy notify and the id index with `g_object_unref`. -/
structure SessionManager where
  max_connections : Nat
  session_from_fd_table : GHashTable GDestroyNotify.null
  session_from_id_table : GHashTable GDestroyNotify.g_object_unref

/-- What a call leaves behind: the manager, the C return value and the actions
performed. -/
structure Outcome (α : Type) where
  manager : SessionManager
  ret : α
  trace : List Event

/-- The handlers connected to the "new-session" signal, as the status they
hand back to `g_signal_emit` for a manager and a session. Handlers are taken
not to modify the manager. -/
abbrev NewSessionHandler := SessionManager → SessionData → Int

/-- Property ids of the manager class. -/
def PROP_0 : Nat := 0

/-- The id of "max-connections". -/
def PROP_MAX_CONNECTIONS : Nat := 1

/-- The number of property ids. -/
def N_PROPERTIES : Nat := 2

/-- GObject property setter. An unknown property id only logs a warning. -/
def session_manager_set_property (mgr : SessionManager) (property_id : Nat)
    (value : Nat) : SessionManager :=
  if property_id = PROP_MAX_CONNECTIONS then
    { mgr with max_connections := value }
  else
    mgr

/-- GObject property getter: the value written to the caller, if any. -/
def session_manager_get_property (mgr : SessionManager) (property_id : Nat) :
    Option Nat :=
  if property_id = PROP_MAX_CONNECTIONS then some mgr.max_connections else none

/-- Source function `session_manager_new`: `g_object_new` hands "max-connections" to the
property setter of the zero-filled instance, then both tables are created
empty. The argument is taken to lie in the range of the property. -/
def session_manager_new (max_connections : Nat) : SessionManager :=
  let session_manager :=
    session_manager_set_property
      { max_connections := 0
        session_from_fd_table := g_hash_table_new_full GDestroyNotify.null
        session_from_id_table := g_hash_table_new_full GDestroyNotify.g_object_unref }
      PROP_MAX_CONNECTIONS max_connections
  { session_manager with
    session_from_fd_table := g_hash_table_new_full GDestroyNotify.null
    session_from_id_table := g_hash_table_new_full GDestroyNotify.g_object_unref }

/-- Source function `session_manager_size`: reads the size of the descriptor index; the mutex
is not taken. -/
def session_manager_size (manager : SessionManager) : Outcome Nat :=
  { manager := manager
    ret := g_hash_table_size manager.session_from_fd_table
    trace := [Event.hash_table Table.session_from_fd_table] }

/-- Source function `session_manager_is_full`: the mutex is not taken here. -/
def session_manager_is_full (manager : SessionManager) : Outcome Bool :=
  let table_size := g_hash_table_size manager.session_from_fd_table
  { manager := manager
    ret := if table_size < manager.max_connections then false else true
    trace := [Event.hash_table Table.session_from_fd_table] }

/-- Source function `session_manager_insert`: under the mutex, reject with -1
when the manager is full, else take a reference and store the session in both
indices; after the unlock, emit "new-session" and return its status. -/
def session_manager_insert (new_session : NewSessionHandler) (manager : SessionManager)
    (session : SessionData) : Outcome Int :=
  let full := session_manager_is_full manager
  if full.ret = true then
    { manager := manager
      ret := -1
      trace := [Event.mutex_lock] ++ full.trace ++ [Event.mutex_unlock] }
  else
    let fd_ins := g_hash_table_insert manager.session_from_fd_table
      (session_data_key_fd session) session
    let id_ins := g_hash_table_insert manager.session_from_id_table
      (session_data_key_id session) session
    let manager1 : SessionManager :=
      { manager with
        session_from_fd_table := fd_ins.1
        session_from_id_table := id_ins.1 }
    { manager := manager1
      ret := new_session manager1 session
      trace := [Event.mutex_lock] ++ full.trace
        ++ [Event.object_ref (some session)]
        ++ [Event.hash_table Table.session_from_fd_table] ++ fd_ins.2
        ++ [Event.hash_table Table.session_from_id_table] ++ id_ins.2
        ++ [Event.mutex_unlock]
        ++ [Event.signal_emit session] }

/-- Source function `session_manager_lookup_fd`: `g_object_ref` is called on whatever the
lookup gave, NULL included. -/
def session_manager_lookup_fd (manager : SessionManager) (fd_in : Int) :
    Outcome (Option SessionData) :=
  let session := g_hash_table_lookup manager.session_from_fd_table fd_in
  { manager := manager
    ret := session
    trace := [Event.mutex_lock, Event.hash_table Table.session_from_fd_table,
      Event.mutex_unlock, Event.object_ref session] }

/-- Source function `session_manager_lookup_id`: `g_object_ref` is called on whatever the
lookup gave, NULL included. -/
def session_manager_lookup_id (manager : SessionManager) (id : Int) :
    Outcome (Option SessionData) :=
  let session := g_hash_table_lookup manager.session_from_id_table id
  { manager := manager
    ret := session
    trace := [Event.mutex_lock, Event.hash_table Table.session_from_id_table,
      Event.mutex_unlock, Event.object_ref session] }

/-- Source function `session_manager_remove`: `none` when either removal does not find its key
(`g_error`). -/
def session_manager_remove (manager : SessionManager) (session : SessionData) :
    Option (Outcome Bool) :=
  let fd_rm := g_hash_table_remove manager.session_from_fd_table
    (session_data_key_fd session)
  if fd_rm.1 != true then
    none
  else
    let id_rm := g_hash_table_remove manager.session_from_id_table
      (session_data_key_id session)
    if id_rm.1 != true then
      none
    else
      some
        { manager :=
            { manager with
              session_from_fd_table := fd_rm.2.1
              session_from_id_table := id_rm.2.1 }
          ret := id_rm.1
          trace := [Event.mutex_lock]
            ++ [Event.hash_table Table.session_from_fd_table] ++ fd_rm.2.2
            ++ [Event.hash_table Table.session_from_id_table] ++ id_rm.2.2
            ++ [Event.mutex_unlock] }

/-- The number of descriptors an `fd_set` holds, from `<sys/select.h>` of the C
library (1024 with glibc); it is not a constant of this repository. -/
def FD_SETSIZE : Int := 1024

/-- The macro `FD_SET` of `<sys/select.h>` on an `fd_set`, read as the set of
descriptors whose bit is set. An `fd_set` has a bit for each descriptor from 0
up to `FD_SETSIZE`, exclusive; for a descriptor outside that range the write
lands outside the bitmap and no member is added (what that write does to
other memory is not part of the embedding). -/
def FD_SET (fd : Int) (set : Finset Int) : Finset Int :=
  if 0 ≤ fd ∧ fd < FD_SETSIZE then insert fd set else set

/-- Source function `set_fd`: `FD_SET` of the receive descriptor of the
session on the caller's `fd_set`. -/
def set_fd (_key : Int) (value : SessionData) (fds : Finset Int) : Finset Int :=
  FD_SET (session_data_receive_fd value) fds

/-- Source function `session_manager_set_fds`: under the mutex, `set_fd` runs
on every entry of the descriptor index. -/
def session_manager_set_fds (manager : SessionManager) (fds : Finset Int) :
    Outcome (Finset Int) :=
  { manager := manager
    ret := g_hash_table_foreach manager.session_from_fd_table set_fd fds
    trace := [Event.mutex_lock, Event.hash_table Table.session_from_fd_table,
      Event.mutex_unlock] }

/-! ## Reading traces -/

/-- The arguments of the `g_object_ref` calls of a trace, in order. -/
def refs_taken (trace : List Event) : List (Option SessionData) :=
  trace.filterMap fun e =>
    match e with
    | Event.object_ref o => some o
    | _ => none

/-- The objects released by `g_object_unref` in a trace, in order. -/
def refs_released (trace : List Event) : List SessionData :=
  trace.filterMap fun e =>
    match e with
    | Event.object_unref o => some o
    | _ => none

/-- The sessions for which "new-session" was emitted in a trace, in order. -/
def emitted (trace : List Event) : List SessionData :=
  trace.filterMap fun e =>
    match e with
    | Event.signal_emit s => some s
    | _ => none

/-- Whether the mutex is held at the end of a trace that starts with the mutex
free. -/
def lock_held (trace : List Event) : Bool :=
  trace.foldl
    (fun held e =>
      match e with
      | Event.mutex_lock => true
      | Event.mutex_unlock => false
      | _ => held)
    false

/-! ## Sequences of operations -/

/-- The public operations of the manager. -/
inductive Op where
  | insert (session : SessionData)
  | lookup_fd (fd_in : Int)
  | lookup_id (id : Int)
  | remove (session : SessionData)
  | size
  | is_full
  | set_fds (fds : Finset Int)

/-- One public operation: the manager afterwards and the actions performed,
`none` when the operation aborts the process. -/
def step (new_session : NewSessionHandler) (op : Op) (manager : SessionManager) :
    Option (SessionManager × List Event) :=
  match op with
  | Op.insert session =>
    let r := session_manager_insert new_session manager session
    some (r.manager, r.trace)
  | Op.lookup_fd fd_in =>
    let r := session_manager_lookup_fd manager fd_in
    some (r.manager, r.trace)
  | Op.lookup_id id =>
    let r := session_manager_lookup_id manager id
    some (r.manager, r.trace)
  | Op.remove session =>
    match session_manager_remove manager session with
    | none => none
    | some r => some (r.manager, r.trace)
  | Op.size =>
    let r := session_manager_size manager
    some (r.manager, r.trace)
  | Op.is_full =>
    let r := session_manager_is_full manager
    some (r.manager, r.trace)
  | Op.set_fds fds =>
    let r := session_manager_set_fds manager fds
    some (r.manager, r.trace)

/-- A sequence of public operations, left to right; `none` as soon as one of
them aborts. -/
def run (new_session : NewSessionHandler) :
    List Op → SessionManager → Option (SessionManager × List Event)
  | [], manager => some (manager, [])
  | op :: ops, manager =>
    match step new_session op manager with
    | none => none
    | some (manager1, trace1) =>
      match run new_session ops manager1 with
      | none => none
      | some (manager2, trace2) => some (manager2, trace1 ++ trace2)

/-- A sequence of inserts with no other operation in between: the manager
afterwards and the value each insert returned. -/
def insert_all (new_session : NewSessionHandler) :
    List SessionData → SessionManager → SessionManager × List Int
  | [], manager => (manager, [])
  | session :: sessions, manager =>
    let r := session_manager_insert new_session manager session
    let rest := insert_all new_session sessions r.manager
    (rest.1, r.ret :: rest.2)

/-- The states reached from a newly constructed manager by public operations
that each satisfy the discipline `D` in the state they are applied to. -/
inductive ReachableBy (D : SessionManager → Op → Prop) (new_session : NewSessionHandler)
    (max_connections : Nat) : SessionManager → Prop where
  | init : ReachableBy D new_session max_connections (session_manager_new max_connections)
  | step {manager manager1 : SessionManager} {op : Op} {trace : List Event} :
      ReachableBy D new_session max_connections manager →
      D manager op →
      step new_session op manager = some (manager1, trace) →
      ReachableBy D new_session max_connections manager1

/-- The states reached from a newly constructed manager by any public
operations. -/
def Reachable (new_session : NewSessionHandler) (max_connections : Nat) :
    SessionManager → Prop :=
  ReachableBy (fun _ _ => True) new_session max_connections


/-! ## Caller disciplines and index agreement -/

/-- The caller allocates keys uniquely: a session handed to insert while the
manager has room carries a descriptor key and an id key that are both absent
from their indices. Nothing is asked of the other operations. -/
def fresh_inserts (manager : SessionManager) : Op → Prop
  | Op.insert session =>
    (session_manager_is_full manager).ret = true ∨
      (g_hash_table_lookup manager.session_from_fd_table
          (session_data_key_fd session) = none ∧
        g_hash_table_lookup manager.session_from_id_table
          (session_data_key_id session) = none)
  | _ => True

/-- The caller allocates keys uniquely and removes only resident sessions: on
top of `fresh_inserts`, a session handed to remove is the object stored under
its descriptor key in the descriptor index and under its id key in the id
index. -/
def fresh_inserts_resident_removes (manager : SessionManager) : Op → Prop
  | Op.insert session => fresh_inserts manager (Op.insert session)
  | Op.remove session =>
    g_hash_table_lookup manager.session_from_fd_table
        (session_data_key_fd session) = some session ∧
      g_hash_table_lookup manager.session_from_id_table
        (session_data_key_id session) = some session
  | _ => True

/-- No session carrying the descriptor key `fd` is ever handed to insert. -/
def never_inserts_fd (fd : Int) (_manager : SessionManager) : Op → Prop
  | Op.insert session => session_data_key_fd session ≠ fd
  | _ => True

/-- No session carrying the id key `id` is ever handed to insert. -/
def never_inserts_id (id : Int) (_manager : SessionManager) : Op → Prop
  | Op.insert session => session_data_key_id session ≠ id
  | _ => True

/-- The two indices hold the same sessions: they have the same number of
entries, every value of the descriptor index sits under its own descriptor key
and is the value of the id index under its id key, and the other way round. -/
def IndicesAgree (manager : SessionManager) : Prop :=
  g_hash_table_size manager.session_from_fd_table
      = g_hash_table_size manager.session_from_id_table ∧
    (∀ k v, g_hash_table_lookup manager.session_from_fd_table k = some v →
      session_data_key_fd v = k ∧
        g_hash_table_lookup manager.session_from_id_table (session_data_key_id v) = some v) ∧
    (∀ k v, g_hash_table_lookup manager.session_from_id_table k = some v →
      session_data_key_id v = k ∧
        g_hash_table_lookup manager.session_from_fd_table (session_data_key_fd v) = some v)

/-! ## Sessions and handlers used in worked examples -/

/-- Session A of the scenario: descriptor 5, id 100. -/
def session_A : SessionData := { obj := 1, receive_fd := 5, id := 100 }

/-- Session B of the scenario: descriptor 6, id 200. -/
def session_B : SessionData := { obj := 2, receive_fd := 6, id := 200 }

/-- Session C of the scenario: descriptor 7, id 300. -/
def session_C : SessionData := { obj := 3, receive_fd := 7, id := 300 }

/-- A second object on the descriptor of session A, with an id of its own. -/
def session_A_fd_twin : SessionData := { obj := 4, receive_fd := 5, id := 400 }

/-- A third object on the descriptor of session A, with an id of its own. -/
def session_A_fd_triplet : SessionData := { obj := 5, receive_fd := 5, id := 500 }

/-- A further object, carrying the descriptor of session A and the id of
session B. -/
def session_mixed : SessionData := { obj := 6, receive_fd := 5, id := 200 }

/-- A handler that reports status 0 for every session. -/
def handler_ok : NewSessionHandler := fun _ _ => 0

/-- A handler that reports the descriptor of the session as its status. -/
def handler_fd : NewSessionHandler := fun _ session => session.receive_fd

/-- The manager of the scenario after A and B were admitted: capacity 2, both
slots taken. -/
def registry_AB : SessionManager :=
  (session_manager_insert handler_ok
    (session_manager_insert handler_ok (session_manager_new 2) session_A).manager
    session_B).manager

/-- A manager of capacity 2 holding session A only. -/
def registry_A : SessionManager :=
  (session_manager_insert handler_ok (session_manager_new 2) session_A).manager

/-- Capacity 2, A admitted, then a second object on the descriptor of A. -/
def registry_fd_twin : SessionManager :=
  (session_manager_insert handler_ok registry_A session_A_fd_twin).manager

/-- Capacity 2, A admitted, then two more objects on the descriptor of A. -/
def registry_fd_triplet : SessionManager :=
  (session_manager_insert handler_ok registry_fd_twin session_A_fd_triplet).manager

/-- Capacity 2, A and B admitted, then A removed. -/
def registry_A_removed : SessionManager :=
  { registry_AB with
    session_from_fd_table :=
      ⟨registry_AB.session_from_fd_table.nodes.erase (session_data_key_fd session_A)⟩
    session_from_id_table :=
      ⟨registry_AB.session_from_id_table.nodes.erase (session_data_key_id session_A)⟩ }

/-- Capacity 2, A and B admitted, then the descriptor entry of A and the id
entry of B erased: what remove leaves when handed `session_mixed`. -/
def registry_mixed_removed : SessionManager :=
  { registry_AB with
    session_from_fd_table :=
      ⟨registry_AB.session_from_fd_table.nodes.erase (session_data_key_fd session_mixed)⟩
    session_from_id_table :=
      ⟨registry_AB.session_from_id_table.nodes.erase (session_data_key_id session_mixed)⟩ }

/-! ## Lock discipline and reference accounting on traces -/

/-- The hash tables called in a trace, in order. -/
def table_accesses (trace : List Event) : List Table :=
  trace.filterMap fun e =>
    match e with
    | Event.hash_table table => some table
    | _ => none

/-- Whether every hash-table call of a trace happens while the mutex is held,
for a trace that starts with the mutex held or not as `held` says. -/
def table_access_locked (held : Bool) : List Event → Bool
  | [] => true
  | Event.mutex_lock :: rest => table_access_locked true rest
  | Event.mutex_unlock :: rest => table_access_locked false rest
  | Event.hash_table _ :: rest => held && table_access_locked held rest
  | _ :: rest => table_access_locked held rest

/-- Whether every signal emission of a trace happens while the mutex is not
held, for a trace that starts with the mutex held or not as `held` says. -/
def emit_unlocked (held : Bool) : List Event → Bool
  | [] => true
  | Event.mutex_lock :: rest => emit_unlocked true rest
  | Event.mutex_unlock :: rest => emit_unlocked false rest
  | Event.signal_emit _ :: rest => !held && emit_unlocked held rest
  | _ :: rest => emit_unlocked held rest

/-- The change one operation makes to the number of references the registry
holds on a session: the `g_object_ref` calls on it made by insert, minus the
`g_object_unref` calls on it (all of which are run by the id index as its
value-destroy notify). References taken by the lookups belong to the caller
and are not counted. -/
def entry_refs (session : SessionData) (entry : Op × List Event) : Int :=
  (match entry.1 with
    | Op.insert _ => (entry.2.count (Event.object_ref (some session)) : Int)
    | _ => 0)
  - (entry.2.count (Event.object_unref session) : Int)

/-- The number of references the registry holds on a session after a log of
operations, each with the actions it performed. -/
def registry_refs (log : List (Op × List Event)) (session : SessionData) : Int :=
  (log.map (entry_refs session)).sum

/-- The states reached from a newly constructed manager by public operations
that each satisfy the discipline `D`, together with the log of the operations
performed and the actions of each. -/
inductive ReachableWith (D : SessionManager → Op → Prop) (new_session : NewSessionHandler)
    (max_connections : Nat) : SessionManager → List (Op × List Event) → Prop where
  | init : ReachableWith D new_session max_connections
      (session_manager_new max_connections) []
  | step {manager manager1 : SessionManager} {log : List (Op × List Event)} {op : Op}
      {trace : List Event} :
      ReachableWith D new_session max_connections manager log →
      D manager op →
      step new_session op manager = some (manager1, trace) →
      ReachableWith D new_session max_connections manager1 (log ++ [(op, trace)])

/-- The two indices hold exactly the sessions of a list, each under its own
keys. -/
def HoldsExactly (manager : SessionManager) (sessions : List SessionData) : Prop :=
  (∀ k v, g_hash_table_lookup manager.session_from_fd_table k = some v ↔
    (v ∈ sessions ∧ session_data_key_fd v = k)) ∧
  (∀ k v, g_hash_table_lookup manager.session_from_id_table k = some v ↔
    (v ∈ sessions ∧ session_data_key_id v = k)) ∧
  g_hash_table_size manager.session_from_fd_table = sessions.length ∧
  g_hash_table_size manager.session_from_id_table = sessions.length

/-- A second object on the id of session A, with a descriptor of its own. -/
def session_A_id_twin : SessionData := { obj := 7, receive_fd := 8, id := 100 }

/-- Capacity 2, A admitted, then a second object on the id of A. -/
def registry_id_twin : SessionManager :=
  (session_manager_insert handler_ok registry_A session_A_id_twin).manager

/-- The log of inserting A and then a second object on the id of A into a new
manager of capacity 2. -/
def log_id_twin : List (Op × List Event) :=
  [(Op.insert session_A,
      (session_manager_insert handler_ok (session_manager_new 2) session_A).trace),
    (Op.insert session_A_id_twin,
      (session_manager_insert handler_ok registry_A session_A_id_twin).trace)]

/-- The log of inserting A and B into a new manager of capacity 2 and then
handing `session_mixed` to remove. -/
def log_mixed_removed : List (Op × List Event) :=
  [(Op.insert session_A,
      (session_manager_insert handler_ok (session_manager_new 2) session_A).trace),
    (Op.insert session_B, (session_manager_insert handler_ok registry_A session_B).trace),
    (Op.remove session_mixed,
      [Event.mutex_lock, Event.hash_table Table.session_from_fd_table,
        Event.hash_table Table.session_from_id_table, Event.object_unref session_B,
        Event.mutex_unlock])]

/-- The log of inserting A, looking A up twice by its descriptor, and
inserting B, on a new manager of capacity 2. -/
def log_AB_with_lookups : List (Op × List Event) :=
  [(Op.insert session_A,
      (session_manager_insert handler_ok (session_manager_new 2) session_A).trace),
    (Op.lookup_fd 5, (session_manager_lookup_fd registry_A 5).trace),
    (Op.lookup_fd 5, (session_manager_lookup_fd registry_A 5).trace),
    (Op.insert session_B, (session_manager_insert handler_ok registry_A session_B).trace)]

/-- A further object carrying both keys of session A. -/
def session_A_clone : SessionData := { obj := 99, receive_fd := 5, id := 100 }

/-- A session whose receive descriptor is 1024. -/
def session_big_fd : SessionData := { obj := 8, receive_fd := 1024, id := 600 }

/-- Capacity 2, holding the session with receive descriptor 1024. -/
def registry_big_fd : SessionManager :=
  (session_manager_insert handler_ok (session_manager_new 2) session_big_fd).manager

/-! ## Facts about the hash tables -/

section Tables

variable {d : GDestroyNotify}

theorem lookup_new_full (k : Int) :
    g_hash_table_lookup (g_hash_table_new_full d) k = none := by
  simp [g_hash_table_lookup, g_hash_table_new_full]

theorem size_new_full : g_hash_table_size (g_hash_table_new_full d) = 0 := by
  simp [g_hash_table_size, g_hash_table_new_full]

theorem lookup_insert_self (t : GHashTable d) (k : Int) (v : SessionData) :
    g_hash_table_lookup (g_hash_table_insert t k v).1 k = some v := by
  simp [g_hash_table_lookup, g_hash_table_insert]

theorem lookup_insert_other (t : GHashTable d) {k k1 : Int} (v : SessionData)
    (h : k1 ≠ k) :
    g_hash_table_lookup (g_hash_table_insert t k v).1 k1 = g_hash_table_lookup t k1 := by
  simp [g_hash_table_lookup, g_hash_table_insert, AList.lookup_insert_ne h]

theorem size_eq_keys (t : GHashTable d) : g_hash_table_size t = t.nodes.keys.length := by
  simp [g_hash_table_size, AList.keys, List.keys]

theorem size_insert_absent (t : GHashTable d) {k : Int} (v : SessionData)
    (h : g_hash_table_lookup t k = none) :
    g_hash_table_size (g_hash_table_insert t k v).1 = g_hash_table_size t + 1 := by
  have hk : k ∉ t.nodes := AList.lookup_eq_none.mp h
  simp only [g_hash_table_size, g_hash_table_insert]
  rw [AList.insert_entries_of_neg hk, List.length_cons]

theorem size_insert_present (t : GHashTable d) {k : Int} (v w : SessionData)
    (h : g_hash_table_lookup t k = some w) :
    g_hash_table_size (g_hash_table_insert t k v).1 = g_hash_table_size t := by
  have hk : k ∈ t.nodes.keys := by
    rw [← AList.mem_keys, ← AList.lookup_isSome]
    simp [g_hash_table_lookup] at h
    simp [h]
  have hpos : 0 < t.nodes.keys.length := List.length_pos_of_mem hk
  rw [size_eq_keys, size_eq_keys]
  simp only [g_hash_table_insert, AList.keys_insert, List.length_cons]
  rw [List.length_erase_of_mem hk]
  omega

theorem events_insert_absent (t : GHashTable d) {k : Int} (v : SessionData)
    (h : g_hash_table_lookup t k = none) :
    (g_hash_table_insert t k v).2 = [] := by
  simp only [g_hash_table_lookup] at h
  simp [g_hash_table_insert, h, value_destroy]

theorem remove_absent (t : GHashTable d) {k : Int}
    (h : g_hash_table_lookup t k = none) :
    g_hash_table_remove t k = (false, t, []) := by
  simp only [g_hash_table_lookup] at h
  simp [g_hash_table_remove, h]

theorem remove_present (t : GHashTable d) {k : Int} {v : SessionData}
    (h : g_hash_table_lookup t k = some v) :
    g_hash_table_remove t k = (true, ⟨t.nodes.erase k⟩, value_destroy d (some v)) := by
  simp only [g_hash_table_lookup] at h
  simp [g_hash_table_remove, h]

theorem lookup_erase_self (t : GHashTable d) (k : Int) :
    g_hash_table_lookup (⟨t.nodes.erase k⟩ : GHashTable d) k = none := by
  simp [g_hash_table_lookup]

theorem lookup_erase_other (t : GHashTable d) {k k1 : Int} (h : k1 ≠ k) :
    g_hash_table_lookup (⟨t.nodes.erase k⟩ : GHashTable d) k1 = g_hash_table_lookup t k1 := by
  simp [g_hash_table_lookup, AList.lookup_erase_ne h]

theorem size_erase_present (t : GHashTable d) {k : Int} {v : SessionData}
    (h : g_hash_table_lookup t k = some v) :
    g_hash_table_size (⟨t.nodes.erase k⟩ : GHashTable d) + 1 = g_hash_table_size t := by
  have hk : k ∈ t.nodes.keys := by
    rw [← AList.mem_keys, ← AList.lookup_isSome]
    simp [g_hash_table_lookup] at h
    simp [h]
  have hpos : 0 < t.nodes.keys.length := List.length_pos_of_mem hk
  rw [size_eq_keys, size_eq_keys]
  simp only [AList.keys_erase]
  rw [List.length_erase_of_mem hk]
  omega

end Tables

/-! ## Facts about the operations -/

theorem is_full_ret (m : SessionManager) :
    (session_manager_is_full m).ret = true ↔
      m.max_connections ≤ g_hash_table_size m.session_from_fd_table := by
  simp [session_manager_is_full]

theorem insert_full (h : NewSessionHandler) (m : SessionManager) (s : SessionData)
    (hfull : m.max_connections ≤ g_hash_table_size m.session_from_fd_table) :
    session_manager_insert h m s =
      { manager := m
        ret := -1
        trace := [Event.mutex_lock, Event.hash_table Table.session_from_fd_table,
          Event.mutex_unlock] } := by
  have hf := (is_full_ret m).mpr hfull
  simp [session_manager_insert, hf]
  simp [session_manager_is_full]

theorem insert_not_full (h : NewSessionHandler) (m : SessionManager) (s : SessionData)
    (hroom : g_hash_table_size m.session_from_fd_table < m.max_connections) :
    session_manager_insert h m s =
      { manager :=
          { m with
            session_from_fd_table :=
              (g_hash_table_insert m.session_from_fd_table (session_data_key_fd s) s).1
            session_from_id_table :=
              (g_hash_table_insert m.session_from_id_table (session_data_key_id s) s).1 }
        ret := h
          { m with
            session_from_fd_table :=
              (g_hash_table_insert m.session_from_fd_table (session_data_key_fd s) s).1
            session_from_id_table :=
              (g_hash_table_insert m.session_from_id_table (session_data_key_id s) s).1 }
          s
        trace := [Event.mutex_lock, Event.hash_table Table.session_from_fd_table,
            Event.object_ref (some s), Event.hash_table Table.session_from_fd_table]
          ++ (g_hash_table_insert m.session_from_fd_table (session_data_key_fd s) s).2
          ++ [Event.hash_table Table.session_from_id_table]
          ++ (g_hash_table_insert m.session_from_id_table (session_data_key_id s) s).2
          ++ [Event.mutex_unlock, Event.signal_emit s] } := by
  have hf : ¬ (session_manager_is_full m).ret = true := by
    rw [is_full_ret]; omega
  simp [session_manager_insert, hf]
  simp [session_manager_is_full]

theorem insert_all_full (h : NewSessionHandler) (m : SessionManager)
    (hfull : m.max_connections ≤ g_hash_table_size m.session_from_fd_table)
    (sessions : List SessionData) :
    insert_all h sessions m = (m, List.replicate sessions.length (-1)) := by
  induction sessions with
  | nil => rfl
  | cons s rest ih =>
    simp [insert_all, insert_full h m s hfull, ih, List.replicate_succ]

/-! ## Insert -/

/-- C1: an insert into a manager whose descriptor index holds at least
max_connections entries returns -1, leaves the manager (both indices, hence
the size) exactly as it was, calls g_object_ref on nothing, emits no
new-session signal and ends with the mutex released; every run of further
inserts from such a state is rejected throughout and ends in the same
state. -/
theorem insert_rejected_when_full (new_session : NewSessionHandler)
    (manager : SessionManager) (session : SessionData) (sessions : List SessionData)
    (hfull : manager.max_connections ≤ (session_manager_size manager).ret) :
    (session_manager_insert new_session manager session).ret = -1 ∧
    (session_manager_insert new_session manager session).manager = manager ∧
    (session_manager_size (session_manager_insert new_session manager session).manager).ret
      = (session_manager_size manager).ret ∧
    refs_taken (session_manager_insert new_session manager session).trace = [] ∧
    emitted (session_manager_insert new_session manager session).trace = [] ∧
    lock_held (session_manager_insert new_session manager session).trace = false ∧
    (insert_all new_session sessions manager).1 = manager ∧
    (insert_all new_session sessions manager).2 = List.replicate sessions.length (-1) := by
  have hfull1 : manager.max_connections ≤ g_hash_table_size manager.session_from_fd_table :=
    hfull
  rw [insert_full new_session manager session hfull1,
    insert_all_full new_session manager hfull1 sessions]
  simp [refs_taken, emitted, lock_held]

/-- C1, at the scenario: with A and B admitted at capacity 2, inserting C is
rejected and so is every insert of the run C, A after it. -/
theorem insert_rejected_when_full_witness :
    registry_AB.max_connections ≤ (session_manager_size registry_AB).ret ∧
    (session_manager_insert handler_ok registry_AB session_C).ret = -1 ∧
    (session_manager_insert handler_ok registry_AB session_C).manager = registry_AB ∧
    (insert_all handler_ok [session_C, session_A] registry_AB).2 = [-1, -1] :=
  have h := insert_rejected_when_full handler_ok registry_AB session_C
    [session_C, session_A] (by decide)
  ⟨by decide, h.1, h.2.1, h.2.2.2.2.2.2.2⟩

/-- C2: an insert into a manager with room, of a session whose descriptor key
and id key are both absent, admits the session: both lookups then return it,
each index has grown by exactly one entry, g_object_ref was called exactly
once and on that session, nothing was released, and every entry present before
is still present under its key in both indices. -/
theorem insert_admits_fresh_session (new_session : NewSessionHandler)
    (manager : SessionManager) (session : SessionData)
    (hroom : (session_manager_size manager).ret < manager.max_connections)
    (hfd : g_hash_table_lookup manager.session_from_fd_table
      (session_data_key_fd session) = none)
    (hid : g_hash_table_lookup manager.session_from_id_table
      (session_data_key_id session) = none) :
    (session_manager_lookup_fd (session_manager_insert new_session manager session).manager
      (session_data_key_fd session)).ret = some session ∧
    (session_manager_lookup_id (session_manager_insert new_session manager session).manager
      (session_data_key_id session)).ret = some session ∧
    (session_manager_size (session_manager_insert new_session manager session).manager).ret
      = (session_manager_size manager).ret + 1 ∧
    g_hash_table_size
        (session_manager_insert new_session manager session).manager.session_from_id_table
      = g_hash_table_size manager.session_from_id_table + 1 ∧
    refs_taken (session_manager_insert new_session manager session).trace = [some session] ∧
    refs_released (session_manager_insert new_session manager session).trace = [] ∧
    (∀ k v, g_hash_table_lookup manager.session_from_fd_table k = some v →
      g_hash_table_lookup
        (session_manager_insert new_session manager session).manager.session_from_fd_table k
        = some v) ∧
    (∀ k v, g_hash_table_lookup manager.session_from_id_table k = some v →
      g_hash_table_lookup
        (session_manager_insert new_session manager session).manager.session_from_id_table k
        = some v) := by
  have hroom1 : g_hash_table_size manager.session_from_fd_table < manager.max_connections :=
    hroom
  rw [insert_not_full new_session manager session hroom1]
  refine ⟨?_, ?_, ?_, ?_, ?_, ?_, ?_, ?_⟩
  · simp [session_manager_lookup_fd, lookup_insert_self]
  · simp [session_manager_lookup_id, lookup_insert_self]
  · simp [session_manager_size, size_insert_absent _ _ hfd]
  · simp [size_insert_absent _ _ hid]
  · simp [refs_taken, events_insert_absent _ _ hfd, events_insert_absent _ _ hid]
  · simp [refs_released, events_insert_absent _ _ hfd, events_insert_absent _ _ hid]
  · intro k v hk
    have hne : k ≠ session_data_key_fd session := by
      intro he; rw [he, hfd] at hk; cases hk
    simp only [lookup_insert_other _ _ hne, hk]
  · intro k v hk
    have hne : k ≠ session_data_key_id session := by
      intro he; rw [he, hid] at hk; cases hk
    simp only [lookup_insert_other _ _ hne, hk]

/-- C2, at the scenario: B is admitted into the manager that holds A. -/
theorem insert_admits_fresh_session_witness :
    (session_manager_size registry_A).ret < registry_A.max_connections ∧
    g_hash_table_lookup registry_A.session_from_fd_table
      (session_data_key_fd session_B) = none ∧
    g_hash_table_lookup registry_A.session_from_id_table
      (session_data_key_id session_B) = none ∧
    (session_manager_lookup_fd (session_manager_insert handler_ok registry_A session_B).manager
      (session_data_key_fd session_B)).ret = some session_B ∧
    (session_manager_size (session_manager_insert handler_ok registry_A session_B).manager).ret
      = (session_manager_size registry_A).ret + 1 :=
  have h := insert_admits_fresh_session handler_ok registry_A session_B
    (by decide) (by decide) (by decide)
  ⟨by decide, by decide, by decide, h.1, h.2.2.1⟩

/-! ## Remove -/

theorem remove_present_both (m : SessionManager) (s : SessionData) {v w : SessionData}
    (hfd : g_hash_table_lookup m.session_from_fd_table (session_data_key_fd s) = some v)
    (hid : g_hash_table_lookup m.session_from_id_table (session_data_key_id s) = some w) :
    session_manager_remove m s = some
      { manager :=
          { m with
            session_from_fd_table := ⟨m.session_from_fd_table.nodes.erase (session_data_key_fd s)⟩
            session_from_id_table := ⟨m.session_from_id_table.nodes.erase (session_data_key_id s)⟩ }
        ret := true
        trace := [Event.mutex_lock, Event.hash_table Table.session_from_fd_table,
          Event.hash_table Table.session_from_id_table, Event.object_unref w,
          Event.mutex_unlock] } := by
  simp [session_manager_remove, remove_present _ hfd, remove_present _ hid, value_destroy]

theorem remove_eq_none_iff (m : SessionManager) (s : SessionData) :
    session_manager_remove m s = none ↔
      (g_hash_table_lookup m.session_from_fd_table (session_data_key_fd s) = none ∨
        g_hash_table_lookup m.session_from_id_table (session_data_key_id s) = none) := by
  cases hfd : g_hash_table_lookup m.session_from_fd_table (session_data_key_fd s) with
  | none => simp [session_manager_remove, remove_absent _ hfd]
  | some v =>
    cases hid : g_hash_table_lookup m.session_from_id_table (session_data_key_id s) with
    | none => simp [session_manager_remove, remove_present _ hfd, remove_absent _ hid]
    | some w => simp [remove_present_both m s hfd hid]

theorem remove_some_inv (m : SessionManager) (s : SessionData) {r : Outcome Bool}
    (h : session_manager_remove m s = some r) :
    ∃ v w, g_hash_table_lookup m.session_from_fd_table (session_data_key_fd s) = some v ∧
      g_hash_table_lookup m.session_from_id_table (session_data_key_id s) = some w ∧
      r.manager =
        { m with
          session_from_fd_table := ⟨m.session_from_fd_table.nodes.erase (session_data_key_fd s)⟩
          session_from_id_table :=
            ⟨m.session_from_id_table.nodes.erase (session_data_key_id s)⟩ } := by
  cases hfd : g_hash_table_lookup m.session_from_fd_table (session_data_key_fd s) with
  | none =>
    rw [(remove_eq_none_iff m s).mpr (Or.inl hfd)] at h
    cases h
  | some v =>
    cases hid : g_hash_table_lookup m.session_from_id_table (session_data_key_id s) with
    | none =>
      rw [(remove_eq_none_iff m s).mpr (Or.inr hid)] at h
      cases h
    | some w =>
      rw [remove_present_both m s hfd hid] at h
      cases h
      exact ⟨v, w, rfl, rfl, rfl⟩

/-- C5: removing a session whose descriptor key is in the descriptor index and
whose id key is in the id index returns true; the entries under these two keys
are gone from their indices and lookups by either key find nothing; each index
has exactly one entry less and every other key maps as before; exactly one
g_object_unref is run, by the id index on the value it held, and none by the
descriptor index. -/
theorem remove_resident_session (manager : SessionManager) (session : SessionData)
    (v_fd v_id : SessionData)
    (hfd : g_hash_table_lookup manager.session_from_fd_table
      (session_data_key_fd session) = some v_fd)
    (hid : g_hash_table_lookup manager.session_from_id_table
      (session_data_key_id session) = some v_id) :
    ∃ r : Outcome Bool, session_manager_remove manager session = some r ∧
      r.ret = true ∧
      g_hash_table_lookup r.manager.session_from_fd_table (session_data_key_fd session)
        = none ∧
      g_hash_table_lookup r.manager.session_from_id_table (session_data_key_id session)
        = none ∧
      (session_manager_lookup_fd r.manager (session_data_key_fd session)).ret = none ∧
      (session_manager_lookup_id r.manager (session_data_key_id session)).ret = none ∧
      (session_manager_size r.manager).ret + 1 = (session_manager_size manager).ret ∧
      g_hash_table_size r.manager.session_from_id_table + 1
        = g_hash_table_size manager.session_from_id_table ∧
      (∀ k, k ≠ session_data_key_fd session →
        g_hash_table_lookup r.manager.session_from_fd_table k
          = g_hash_table_lookup manager.session_from_fd_table k) ∧
      (∀ k, k ≠ session_data_key_id session →
        g_hash_table_lookup r.manager.session_from_id_table k
          = g_hash_table_lookup manager.session_from_id_table k) ∧
      r.manager.max_connections = manager.max_connections ∧
      (g_hash_table_remove manager.session_from_fd_table
        (session_data_key_fd session)).2.2 = [] ∧
      (g_hash_table_remove manager.session_from_id_table
        (session_data_key_id session)).2.2 = [Event.object_unref v_id] ∧
      refs_released r.trace = [v_id] ∧
      refs_taken r.trace = [] ∧
      lock_held r.trace = false := by
  refine ⟨_, remove_present_both manager session hfd hid, rfl, ?_, ?_, ?_, ?_, ?_, ?_, ?_, ?_,
    rfl, ?_, ?_, ?_, ?_, ?_⟩
  · exact lookup_erase_self _ _
  · exact lookup_erase_self _ _
  · simp [session_manager_lookup_fd, lookup_erase_self]
  · simp [session_manager_lookup_id, lookup_erase_self]
  · exact size_erase_present _ hfd
  · exact size_erase_present _ hid
  · intro k hk
    exact lookup_erase_other _ hk
  · intro k hk
    exact lookup_erase_other _ hk
  · simp [remove_present _ hfd, value_destroy]
  · simp [remove_present _ hid, value_destroy]
  · simp [refs_released]
  · simp [refs_taken]
  · simp [lock_held]

/-- C5, at the scenario: removing A from the manager that holds A and B. -/
theorem remove_resident_session_witness :
    g_hash_table_lookup registry_AB.session_from_fd_table
      (session_data_key_fd session_A) = some session_A ∧
    g_hash_table_lookup registry_AB.session_from_id_table
      (session_data_key_id session_A) = some session_A ∧
    ∃ r : Outcome Bool, session_manager_remove registry_AB session_A = some r ∧
      r.ret = true ∧
      (session_manager_size r.manager).ret + 1 = (session_manager_size registry_AB).ret ∧
      refs_released r.trace = [session_A] :=
  have h := remove_resident_session registry_AB session_A session_A session_A
    (by decide) (by decide)
  ⟨by decide, by decide, h.elim fun r hr =>
    ⟨r, hr.1, hr.2.1, hr.2.2.2.2.2.2.1, hr.2.2.2.2.2.2.2.2.2.2.2.2.2.1⟩⟩

/-! ## Lookup -/

/-- C7: a lookup by a descriptor, or by an id, that is present in its index
returns exactly the session stored under it, calls g_object_ref exactly once
and on that session, releases nothing, and hands back the manager unchanged
(both indices, hence the size, and max_connections). -/
theorem lookup_present_key (manager : SessionManager) :
    (∀ (fd_in : Int) (v : SessionData),
      g_hash_table_lookup manager.session_from_fd_table fd_in = some v →
        (session_manager_lookup_fd manager fd_in).ret = some v ∧
        refs_taken (session_manager_lookup_fd manager fd_in).trace = [some v] ∧
        refs_released (session_manager_lookup_fd manager fd_in).trace = [] ∧
        (session_manager_lookup_fd manager fd_in).manager = manager ∧
        lock_held (session_manager_lookup_fd manager fd_in).trace = false) ∧
    (∀ (id : Int) (v : SessionData),
      g_hash_table_lookup manager.session_from_id_table id = some v →
        (session_manager_lookup_id manager id).ret = some v ∧
        refs_taken (session_manager_lookup_id manager id).trace = [some v] ∧
        refs_released (session_manager_lookup_id manager id).trace = [] ∧
        (session_manager_lookup_id manager id).manager = manager ∧
        lock_held (session_manager_lookup_id manager id).trace = false) := by
  constructor
  · intro fd_in v h
    simp [session_manager_lookup_fd, h, refs_taken, refs_released, lock_held]
  · intro id v h
    simp [session_manager_lookup_id, h, refs_taken, refs_released, lock_held]

/-- C7, at the scenario: descriptor 6 and id 200 both give B. -/
theorem lookup_present_key_witness :
    g_hash_table_lookup registry_AB.session_from_fd_table 6 = some session_B ∧
    g_hash_table_lookup registry_AB.session_from_id_table 200 = some session_B ∧
    (session_manager_lookup_fd registry_AB 6).ret = some session_B ∧
    refs_taken (session_manager_lookup_fd registry_AB 6).trace = [some session_B] ∧
    (session_manager_lookup_id registry_AB 200).ret = some session_B ∧
    refs_taken (session_manager_lookup_id registry_AB 200).trace = [some session_B] :=
  have h1 := (lookup_present_key registry_AB).1 6 session_B (by decide)
  have h2 := (lookup_present_key registry_AB).2 200 session_B (by decide)
  ⟨by decide, by decide, h1.1, h1.2.1, h2.1, h2.2.1⟩

/-- C8: on a newly constructed manager of capacity 2, the lookup by descriptor
5 and the lookup by id 100 find nothing and return NULL, and each of them has
called g_object_ref once, on the NULL pointer. -/
theorem lookup_absent_key_refs_null :
    (session_manager_lookup_fd (session_manager_new 2) 5).ret = none ∧
    (session_manager_lookup_fd (session_manager_new 2) 5).trace
      = [Event.mutex_lock, Event.hash_table Table.session_from_fd_table,
          Event.mutex_unlock, Event.object_ref none] ∧
    refs_taken (session_manager_lookup_fd (session_manager_new 2) 5).trace = [none] ∧
    (session_manager_lookup_id (session_manager_new 2) 100).ret = none ∧
    (session_manager_lookup_id (session_manager_new 2) 100).trace
      = [Event.mutex_lock, Event.hash_table Table.session_from_id_table,
          Event.mutex_unlock, Event.object_ref none] ∧
    refs_taken (session_manager_lookup_id (session_manager_new 2) 100).trace = [none] := by
  decide

/-! ## Facts about traces -/

theorem emitted_value_destroy (d : GDestroyNotify) (o : Option SessionData) :
    emitted (value_destroy d o) = [] := by
  cases d <;> cases o <;> rfl

theorem refs_taken_value_destroy (d : GDestroyNotify) (o : Option SessionData) :
    refs_taken (value_destroy d o) = [] := by
  cases d <;> cases o <;> rfl

theorem insert_events {d : GDestroyNotify} (t : GHashTable d) (k : Int) (v : SessionData) :
    (g_hash_table_insert t k v).2 = value_destroy d (g_hash_table_lookup t k) := rfl

theorem emitted_append (a b : List Event) : emitted (a ++ b) = emitted a ++ emitted b := by
  simp [emitted, List.filterMap_append]

theorem refs_taken_append (a b : List Event) :
    refs_taken (a ++ b) = refs_taken a ++ refs_taken b := by
  simp [refs_taken, List.filterMap_append]

theorem emitted_insert_not_full (m : SessionManager) (s : SessionData) :
    emitted ([Event.mutex_lock, Event.hash_table Table.session_from_fd_table,
            Event.object_ref (some s), Event.hash_table Table.session_from_fd_table]
          ++ (g_hash_table_insert m.session_from_fd_table (session_data_key_fd s) s).2
          ++ [Event.hash_table Table.session_from_id_table]
          ++ (g_hash_table_insert m.session_from_id_table (session_data_key_id s) s).2
          ++ [Event.mutex_unlock, Event.signal_emit s]) = [s] := by
  simp only [emitted_append, insert_events, emitted_value_destroy]
  simp [emitted]

/-! ## Sequences of operations -/

theorem step_cases {h : NewSessionHandler} {op : Op} {m m1 : SessionManager}
    {t : List Event} (hs : step h op m = some (m1, t)) :
    (∃ s, op = Op.insert s ∧ m1 = (session_manager_insert h m s).manager) ∨
    (∃ s r, op = Op.remove s ∧ session_manager_remove m s = some r ∧ m1 = r.manager) ∨
    m1 = m := by
  cases op with
  | insert s =>
    left
    simp only [step, Option.some.injEq, Prod.mk.injEq] at hs
    exact ⟨s, rfl, hs.1.symm⟩
  | remove s =>
    right; left
    cases hr : session_manager_remove m s with
    | none => simp [step, hr] at hs
    | some r =>
      simp only [step, hr, Option.some.injEq, Prod.mk.injEq] at hs
      exact ⟨s, r, rfl, hr, hs.1.symm⟩
  | lookup_fd k =>
    right; right
    simp only [step, session_manager_lookup_fd, Option.some.injEq, Prod.mk.injEq] at hs
    exact hs.1.symm
  | lookup_id k =>
    right; right
    simp only [step, session_manager_lookup_id, Option.some.injEq, Prod.mk.injEq] at hs
    exact hs.1.symm
  | size =>
    right; right
    simp only [step, session_manager_size, Option.some.injEq, Prod.mk.injEq] at hs
    exact hs.1.symm
  | is_full =>
    right; right
    simp only [step, session_manager_is_full, Option.some.injEq, Prod.mk.injEq] at hs
    exact hs.1.symm
  | set_fds fds =>
    right; right
    simp only [step, session_manager_set_fds, Option.some.injEq, Prod.mk.injEq] at hs
    exact hs.1.symm

theorem insert_max_connections (h : NewSessionHandler) (m : SessionManager)
    (s : SessionData) :
    (session_manager_insert h m s).manager.max_connections = m.max_connections := by
  by_cases hf : m.max_connections ≤ g_hash_table_size m.session_from_fd_table
  · rw [insert_full h m s hf]
  · rw [insert_not_full h m s (by omega)]

theorem step_max_connections {h : NewSessionHandler} {op : Op} {m m1 : SessionManager}
    {t : List Event} (hs : step h op m = some (m1, t)) :
    m1.max_connections = m.max_connections := by
  rcases step_cases hs with ⟨s, _, hm⟩ | ⟨s, r, _, hr, hm⟩ | hm
  · rw [hm, insert_max_connections]
  · obtain ⟨v, w, _, _, hrm⟩ := remove_some_inv m s hr
    rw [hm, hrm]
  · rw [hm]

theorem new_max_connections (max_connections : Nat) :
    (session_manager_new max_connections).max_connections = max_connections := by
  simp [session_manager_new, session_manager_set_property]

theorem reachableBy_max_connections {D : SessionManager → Op → Prop}
    {h : NewSessionHandler} {max_connections : Nat} {m : SessionManager}
    (hr : ReachableBy D h max_connections m) : m.max_connections = max_connections := by
  induction hr with
  | init => exact new_max_connections max_connections
  | step _ _ hs ih => rw [step_max_connections hs, ih]

/-- C9: when the manager has room, the value insert returns is the status the
new-session handlers report for the session just stored, and the signal is
emitted exactly once, for that session; no signal is emitted exactly when the
manager is full, and then the value returned is -1. -/
theorem insert_returns_handler_status (new_session : NewSessionHandler)
    (manager : SessionManager) (session : SessionData) :
    ((session_manager_size manager).ret < manager.max_connections →
      (session_manager_insert new_session manager session).ret
          = new_session (session_manager_insert new_session manager session).manager session ∧
        emitted (session_manager_insert new_session manager session).trace = [session]) ∧
    (emitted (session_manager_insert new_session manager session).trace = [] ↔
      (session_manager_is_full manager).ret = true) ∧
    ((session_manager_is_full manager).ret = true →
      (session_manager_insert new_session manager session).ret = -1) := by
  by_cases hf : manager.max_connections ≤ g_hash_table_size manager.session_from_fd_table
  · have hfull := (is_full_ret manager).mpr hf
    rw [insert_full new_session manager session hf]
    refine ⟨?_, ?_, ?_⟩
    · intro hroom
      have hroom1 : g_hash_table_size manager.session_from_fd_table
          < manager.max_connections := hroom
      omega
    · simp [emitted, hfull]
    · intro _
      rfl
  · have hroom : g_hash_table_size manager.session_from_fd_table
        < manager.max_connections := by omega
    have hnot : ¬ (session_manager_is_full manager).ret = true := by
      rw [is_full_ret]; exact hf
    rw [insert_not_full new_session manager session hroom]
    refine ⟨?_, ?_, ?_⟩
    · intro _
      exact ⟨rfl, emitted_insert_not_full manager session⟩
    · simp only [emitted_insert_not_full manager session]
      simp [hnot]
    · intro hx
      exact absurd hx hnot

/-- C9, at the scenario: with a handler that reports the descriptor of the
session, inserting B into the manager that holds A returns 6. -/
theorem insert_returns_handler_status_witness :
    (session_manager_size registry_A).ret < registry_A.max_connections ∧
    (session_manager_insert handler_fd registry_A session_B).ret = 6 ∧
    emitted (session_manager_insert handler_fd registry_A session_B).trace = [session_B] :=
  have h := (insert_returns_handler_status handler_fd registry_A session_B).1 (by decide)
  ⟨by decide, h.1, h.2⟩

/-! ## Size and is_full -/

/-- C10: is_full returns true exactly when the size (the number of entries of
the descriptor index) is at least max_connections; this holds in every state,
so also in the state any public operation leaves; is_full and size hand back
the manager unchanged; a manager constructed with max_connections 0 is full at
construction and in every state reached from there. -/
theorem is_full_iff_size_ge_max (new_session : NewSessionHandler) (manager : SessionManager) :
    ((session_manager_is_full manager).ret = true ↔
      manager.max_connections ≤ (session_manager_size manager).ret) ∧
    (session_manager_is_full manager).manager = manager ∧
    (session_manager_size manager).manager = manager ∧
    (session_manager_size manager).ret = g_hash_table_size manager.session_from_fd_table ∧
    (∀ (op : Op) (manager1 : SessionManager) (trace : List Event),
      step new_session op manager = some (manager1, trace) →
        ((session_manager_is_full manager1).ret = true ↔
          manager1.max_connections ≤ (session_manager_size manager1).ret)) ∧
    (session_manager_is_full (session_manager_new 0)).ret = true ∧
    (Reachable new_session 0 manager → (session_manager_is_full manager).ret = true) := by
  refine ⟨is_full_ret manager, rfl, rfl, rfl, ?_, ?_, ?_⟩
  · intro op manager1 trace _
    exact is_full_ret manager1
  · rw [is_full_ret, new_max_connections]
    exact Nat.zero_le _
  · intro hr
    rw [is_full_ret, reachableBy_max_connections hr]
    exact Nat.zero_le _

/-- C10, at the scenario: the manager that holds A and B at capacity 2 is
full, the one that holds only A is not. -/
theorem is_full_iff_size_ge_max_witness :
    (session_manager_is_full registry_AB).ret = true ∧
    registry_AB.max_connections ≤ (session_manager_size registry_AB).ret ∧
    (session_manager_is_full registry_A).ret = false ∧
    (session_manager_size registry_A).ret < registry_A.max_connections :=
  ⟨(is_full_iff_size_ge_max handler_ok registry_AB).1.mpr (by decide), by decide,
    by decide, by decide⟩

/-! ## Agreement of the two indices -/

theorem agree_new (max_connections : Nat) :
    IndicesAgree (session_manager_new max_connections) := by
  refine ⟨rfl, ?_, ?_⟩
  · intro k v hk
    simp [session_manager_new, session_manager_set_property, lookup_new_full] at hk
  · intro k v hk
    simp [session_manager_new, session_manager_set_property, lookup_new_full] at hk

theorem agree_insert_fresh (h : NewSessionHandler) {m : SessionManager} (s : SessionData)
    (ha : IndicesAgree m)
    (hroom : g_hash_table_size m.session_from_fd_table < m.max_connections)
    (hfd : g_hash_table_lookup m.session_from_fd_table (session_data_key_fd s) = none)
    (hid : g_hash_table_lookup m.session_from_id_table (session_data_key_id s) = none) :
    IndicesAgree (session_manager_insert h m s).manager := by
  obtain ⟨hsz, h1, h2⟩ := ha
  rw [insert_not_full h m s hroom]
  refine ⟨?_, ?_, ?_⟩
  · simp only [size_insert_absent _ _ hfd, size_insert_absent _ _ hid, hsz]
  · intro k v hk
    by_cases hks : k = session_data_key_fd s
    · subst hks
      simp only [lookup_insert_self, Option.some.injEq] at hk
      subst hk
      exact ⟨rfl, lookup_insert_self _ _ _⟩
    · simp only [lookup_insert_other _ _ hks] at hk
      obtain ⟨hkv, hv⟩ := h1 k v hk
      have hne : session_data_key_id v ≠ session_data_key_id s := by
        intro e
        rw [e, hid] at hv
        cases hv
      exact ⟨hkv, by simp only [lookup_insert_other _ _ hne, hv]⟩
  · intro k v hk
    by_cases hks : k = session_data_key_id s
    · subst hks
      simp only [lookup_insert_self, Option.some.injEq] at hk
      subst hk
      exact ⟨rfl, lookup_insert_self _ _ _⟩
    · simp only [lookup_insert_other _ _ hks] at hk
      obtain ⟨hkv, hv⟩ := h2 k v hk
      have hne : session_data_key_fd v ≠ session_data_key_fd s := by
        intro e
        rw [e, hfd] at hv
        cases hv
      exact ⟨hkv, by simp only [lookup_insert_other _ _ hne, hv]⟩

theorem agree_remove_resident {m : SessionManager} (s : SessionData) (ha : IndicesAgree m)
    (hfd : g_hash_table_lookup m.session_from_fd_table (session_data_key_fd s) = some s)
    (hid : g_hash_table_lookup m.session_from_id_table (session_data_key_id s) = some s) :
    IndicesAgree
      { m with
        session_from_fd_table := ⟨m.session_from_fd_table.nodes.erase (session_data_key_fd s)⟩
        session_from_id_table :=
          ⟨m.session_from_id_table.nodes.erase (session_data_key_id s)⟩ } := by
  obtain ⟨hsz, h1, h2⟩ := ha
  refine ⟨?_, ?_, ?_⟩
  · have e1 := size_erase_present _ hfd
    have e2 := size_erase_present _ hid
    simp only
    omega
  · intro k v hk
    simp only at hk
    by_cases hks : k = session_data_key_fd s
    · subst hks
      rw [lookup_erase_self] at hk
      cases hk
    · rw [lookup_erase_other _ hks] at hk
      obtain ⟨hkv, hv⟩ := h1 k v hk
      have hne : session_data_key_id v ≠ session_data_key_id s := by
        intro e
        rw [e, hid] at hv
        cases hv
        exact hks hkv.symm
      exact ⟨hkv, by simp only [lookup_erase_other _ hne, hv]⟩
  · intro k v hk
    simp only at hk
    by_cases hks : k = session_data_key_id s
    · subst hks
      rw [lookup_erase_self] at hk
      cases hk
    · rw [lookup_erase_other _ hks] at hk
      obtain ⟨hkv, hv⟩ := h2 k v hk
      have hne : session_data_key_fd v ≠ session_data_key_fd s := by
        intro e
        rw [e, hfd] at hv
        cases hv
        exact hks hkv.symm
      exact ⟨hkv, by simp only [lookup_erase_other _ hne, hv]⟩

theorem agree_of_reachable {h : NewSessionHandler} {max_connections : Nat}
    {m : SessionManager}
    (hr : ReachableBy fresh_inserts_resident_removes h max_connections m) :
    IndicesAgree m := by
  induction hr with
  | init => exact agree_new max_connections
  | @step m0 m1 op t _ hd hs ih =>
    rcases step_cases hs with ⟨s, hop, hm⟩ | ⟨s, r, hop, hrm, hm⟩ | hm
    · subst hop
      rw [hm]
      rcases hd with hfull | ⟨hfd, hid⟩
      · rw [insert_full h m0 s ((is_full_ret m0).mp hfull)]
        exact ih
      · by_cases hf : m0.max_connections ≤ g_hash_table_size m0.session_from_fd_table
        · rw [insert_full h m0 s hf]
          exact ih
        · exact agree_insert_fresh h s ih (by omega) hfd hid
    · subst hop
      obtain ⟨v, w, _, _, hr1⟩ := remove_some_inv m0 s hrm
      rw [hm, hr1]
      exact agree_remove_resident s ih hd.1 hd.2
    · rw [hm]
      exact ih

theorem reachable_insert {D : SessionManager → Op → Prop} {h : NewSessionHandler}
    {max_connections : Nat} {m : SessionManager} (s : SessionData)
    (hr : ReachableBy D h max_connections m) (hd : D m (Op.insert s)) :
    ReachableBy D h max_connections (session_manager_insert h m s).manager :=
  ReachableBy.step hr hd rfl

theorem reachable_remove {D : SessionManager → Op → Prop} {h : NewSessionHandler}
    {max_connections : Nat} {m : SessionManager} (s : SessionData) {r : Outcome Bool}
    (hr : ReachableBy D h max_connections m) (hd : D m (Op.remove s))
    (hrm : session_manager_remove m s = some r) :
    ReachableBy D h max_connections r.manager :=
  have hs : step h (Op.remove s) m = some (r.manager, r.trace) := by
    simp only [step, hrm]
  ReachableBy.step hr hd hs

/-! ## Remove: when it aborts -/

theorem lookup_erase_none {d : GDestroyNotify} (t : GHashTable d) {k : Int} (k1 : Int)
    (h : g_hash_table_lookup t k = none) :
    g_hash_table_lookup (⟨t.nodes.erase k1⟩ : GHashTable d) k = none := by
  by_cases hk : k = k1
  · subst hk
    exact lookup_erase_self _ _
  · rw [lookup_erase_other _ hk]
    exact h

theorem fd_absent_of_never_inserted {h : NewSessionHandler} {max_connections : Nat}
    {m : SessionManager} {fd : Int}
    (hr : ReachableBy (never_inserts_fd fd) h max_connections m) :
    g_hash_table_lookup m.session_from_fd_table fd = none := by
  induction hr with
  | init => simp [session_manager_new, session_manager_set_property, lookup_new_full]
  | @step m0 m1 op t _ hd hs ih =>
    rcases step_cases hs with ⟨s, hop, hm⟩ | ⟨s, r, _, hrm, hm⟩ | hm
    · subst hop
      rw [hm]
      by_cases hf : m0.max_connections ≤ g_hash_table_size m0.session_from_fd_table
      · rw [insert_full h m0 s hf]
        exact ih
      · rw [insert_not_full h m0 s (by omega)]
        have hne : fd ≠ session_data_key_fd s := fun e => hd e.symm
        simp only [lookup_insert_other _ _ hne, ih]
    · obtain ⟨v, w, _, _, hr1⟩ := remove_some_inv m0 s hrm
      rw [hm, hr1]
      exact lookup_erase_none _ _ ih
    · rw [hm]
      exact ih

theorem id_absent_of_never_inserted {h : NewSessionHandler} {max_connections : Nat}
    {m : SessionManager} {id : Int}
    (hr : ReachableBy (never_inserts_id id) h max_connections m) :
    g_hash_table_lookup m.session_from_id_table id = none := by
  induction hr with
  | init => simp [session_manager_new, session_manager_set_property, lookup_new_full]
  | @step m0 m1 op t _ hd hs ih =>
    rcases step_cases hs with ⟨s, hop, hm⟩ | ⟨s, r, _, hrm, hm⟩ | hm
    · subst hop
      rw [hm]
      by_cases hf : m0.max_connections ≤ g_hash_table_size m0.session_from_fd_table
      · rw [insert_full h m0 s hf]
        exact ih
      · rw [insert_not_full h m0 s (by omega)]
        have hne : id ≠ session_data_key_id s := fun e => hd e.symm
        simp only [lookup_insert_other _ _ hne, ih]
    · obtain ⟨v, w, _, _, hr1⟩ := remove_some_inv m0 s hrm
      rw [hm, hr1]
      exact lookup_erase_none _ _ ih
    · rw [hm]
      exact ih

/-- C6 as stated fails. At capacity 2, after A (descriptor 5, id 100) and B
were inserted and nothing else, remove is handed a further object that carries
descriptor 5 and id 100: it was never inserted, yet both removals find their
key, remove returns TRUE, and the run of the three operations does not
abort. -/
theorem remove_never_inserted_counterexample :
    (run handler_ok [Op.insert session_A, Op.insert session_B]
      (session_manager_new 2)).map Prod.fst = some registry_AB ∧
    session_A_clone ≠ session_A ∧
    session_A_clone ≠ session_B ∧
    (session_manager_remove registry_AB session_A_clone).map (fun r => r.ret) = some true ∧
    (session_manager_remove registry_AB session_A_clone).map (fun r => refs_released r.trace)
      = some [session_A] ∧
    (run handler_ok [Op.insert session_A, Op.insert session_B, Op.remove session_A_clone]
      (session_manager_new 2)).isSome = true :=
  ⟨rfl, by decide, by decide, by decide, by decide, by decide⟩

/-- C6, amended: remove aborts exactly when the descriptor key of the session
is absent from the descriptor index or its id key is absent from the id index;
equivalently it returns exactly when both keys are present. Hence every remove
on a newly constructed manager aborts; so does the remove of a session whose
descriptor key, or whose id key, was carried by no session handed to insert
since construction; and so does a remove that follows a returned remove of the
same session. -/
theorem remove_fatal_iff_key_absent (new_session : NewSessionHandler)
    (manager : SessionManager) (session : SessionData) (max_connections : Nat) :
    (session_manager_remove manager session = none ↔
      (g_hash_table_lookup manager.session_from_fd_table (session_data_key_fd session) = none ∨
        g_hash_table_lookup manager.session_from_id_table
          (session_data_key_id session) = none)) ∧
    ((session_manager_remove manager session).isSome = true ↔
      ((g_hash_table_lookup manager.session_from_fd_table
          (session_data_key_fd session)).isSome = true ∧
        (g_hash_table_lookup manager.session_from_id_table
          (session_data_key_id session)).isSome = true)) ∧
    session_manager_remove (session_manager_new max_connections) session = none ∧
    (ReachableBy (never_inserts_fd (session_data_key_fd session)) new_session
        max_connections manager →
      session_manager_remove manager session = none) ∧
    (ReachableBy (never_inserts_id (session_data_key_id session)) new_session
        max_connections manager →
      session_manager_remove manager session = none) ∧
    ((session_manager_remove manager session).bind
      fun r => session_manager_remove r.manager session) = none := by
  refine ⟨remove_eq_none_iff manager session, ?_, ?_, ?_, ?_, ?_⟩
  · have h := remove_eq_none_iff manager session
    cases hr : session_manager_remove manager session with
    | none =>
      rcases h.mp hr with h1 | h1 <;> simp [h1]
    | some r =>
      obtain ⟨v, w, hv, hw, _⟩ := remove_some_inv manager session hr
      simp [hv, hw]
  · rw [remove_eq_none_iff]
    left
    simp [session_manager_new, session_manager_set_property, lookup_new_full]
  · intro hr
    exact (remove_eq_none_iff manager session).mpr (Or.inl (fd_absent_of_never_inserted hr))
  · intro hr
    exact (remove_eq_none_iff manager session).mpr (Or.inr (id_absent_of_never_inserted hr))
  · cases hr : session_manager_remove manager session with
    | none => rfl
    | some r =>
      obtain ⟨v, w, _, _, hm⟩ := remove_some_inv manager session hr
      simp only [Option.bind]
      rw [remove_eq_none_iff, hm]
      left
      exact lookup_erase_self _ _

/-- C6, amended, at the scenario: with A and B admitted, removing C, whose
descriptor key no inserted session carried, aborts; removing A returns, and
removing A again aborts. -/
theorem remove_fatal_iff_key_absent_witness :
    ReachableBy (never_inserts_fd (session_data_key_fd session_C)) handler_ok 2 registry_AB ∧
    session_manager_remove registry_AB session_C = none ∧
    (session_manager_remove registry_AB session_A).isSome = true ∧
    ((session_manager_remove registry_AB session_A).bind
      fun r => session_manager_remove r.manager session_A) = none :=
  have hA : ReachableBy (never_inserts_fd (session_data_key_fd session_C)) handler_ok 2
      registry_A :=
    reachable_insert session_A ReachableBy.init
      (show session_data_key_fd session_A ≠ session_data_key_fd session_C by decide)
  have hAB : ReachableBy (never_inserts_fd (session_data_key_fd session_C)) handler_ok 2
      registry_AB :=
    reachable_insert session_B hA
      (show session_data_key_fd session_B ≠ session_data_key_fd session_C by decide)
  have h := remove_fatal_iff_key_absent handler_ok registry_AB session_C 2
  have h1 := remove_fatal_iff_key_absent handler_ok registry_AB session_A 2
  ⟨hAB, h.2.2.2.1 hAB, h1.2.1.mpr ⟨by decide, by decide⟩, h1.2.2.2.2.2⟩

/-! ## The two invariants of the data model -/

/-- C3 as stated fails. At capacity 2, after A (descriptor 5, id 100) and a
second object on descriptor 5 (id 400) were inserted, the descriptor index has
1 entry and the id index 2, and A is stored under its id but not under its
descriptor. After A and B were inserted and remove was handed an object with
the descriptor of A and the id of B, the indices have 1 entry each, yet A is
only in the id index and B only in the descriptor index. -/
theorem dual_index_consistency_counterexample :
    Reachable handler_ok 2 registry_fd_twin ∧
    g_hash_table_size registry_fd_twin.session_from_fd_table = 1 ∧
    g_hash_table_size registry_fd_twin.session_from_id_table = 2 ∧
    g_hash_table_lookup registry_fd_twin.session_from_id_table
      (session_data_key_id session_A) = some session_A ∧
    g_hash_table_lookup registry_fd_twin.session_from_fd_table
      (session_data_key_fd session_A) = some session_A_fd_twin ∧
    session_A_fd_twin ≠ session_A ∧
    Reachable handler_ok 2 registry_mixed_removed ∧
    g_hash_table_size registry_mixed_removed.session_from_fd_table = 1 ∧
    g_hash_table_size registry_mixed_removed.session_from_id_table = 1 ∧
    g_hash_table_lookup registry_mixed_removed.session_from_id_table
      (session_data_key_id session_A) = some session_A ∧
    g_hash_table_lookup registry_mixed_removed.session_from_fd_table
      (session_data_key_fd session_A) = none ∧
    g_hash_table_lookup registry_mixed_removed.session_from_fd_table
      (session_data_key_fd session_B) = some session_B ∧
    g_hash_table_lookup registry_mixed_removed.session_from_id_table
      (session_data_key_id session_B) = none := by
  have hA : Reachable handler_ok 2 registry_A :=
    reachable_insert session_A ReachableBy.init trivial
  have hAB : Reachable handler_ok 2 registry_AB := reachable_insert session_B hA trivial
  have hrm := remove_present_both registry_AB session_mixed
    (show g_hash_table_lookup registry_AB.session_from_fd_table
      (session_data_key_fd session_mixed) = some session_A by decide)
    (show g_hash_table_lookup registry_AB.session_from_id_table
      (session_data_key_id session_mixed) = some session_B by decide)
  refine ⟨reachable_insert session_A_fd_twin hA trivial, by decide, by decide, by decide,
    by decide, by decide, reachable_remove session_mixed hAB trivial hrm, by decide,
    by decide, by decide, by decide, by decide, by decide⟩

/-- C3, amended: in every state reached from a newly constructed manager by
public operations in which every session inserted while there is room has both
keys absent, and every session removed is the object stored under its own keys
in both indices, the two indices have the same number of entries, and a
session is stored in the descriptor index under its descriptor key exactly
when it is stored in the id index under its id key; every value of one index
is found in the other under its own key. -/
theorem dual_index_consistency_unique_keys (new_session : NewSessionHandler)
    (max_connections : Nat) (manager : SessionManager)
    (hr : ReachableBy fresh_inserts_resident_removes new_session max_connections manager) :
    g_hash_table_size manager.session_from_fd_table
      = g_hash_table_size manager.session_from_id_table ∧
    (∀ s : SessionData,
      g_hash_table_lookup manager.session_from_fd_table (session_data_key_fd s) = some s ↔
        g_hash_table_lookup manager.session_from_id_table (session_data_key_id s) = some s) ∧
    (∀ k v, g_hash_table_lookup manager.session_from_fd_table k = some v →
      g_hash_table_lookup manager.session_from_id_table (session_data_key_id v) = some v) ∧
    (∀ k v, g_hash_table_lookup manager.session_from_id_table k = some v →
      g_hash_table_lookup manager.session_from_fd_table (session_data_key_fd v) = some v) := by
  obtain ⟨hsz, h1, h2⟩ := agree_of_reachable hr
  refine ⟨hsz, ?_, ?_, ?_⟩
  · intro s
    exact ⟨fun hs => (h1 _ _ hs).2, fun hs => (h2 _ _ hs).2⟩
  · intro k v hk
    exact (h1 k v hk).2
  · intro k v hk
    exact (h2 k v hk).2

/-- C3, amended, at the scenario: A and B inserted with fresh keys at
capacity 2, then A, which is resident, removed. -/
theorem dual_index_consistency_unique_keys_witness :
    ReachableBy fresh_inserts_resident_removes handler_ok 2 registry_A_removed ∧
    g_hash_table_size registry_A_removed.session_from_fd_table
      = g_hash_table_size registry_A_removed.session_from_id_table ∧
    (g_hash_table_lookup registry_A_removed.session_from_fd_table
        (session_data_key_fd session_B) = some session_B ↔
      g_hash_table_lookup registry_A_removed.session_from_id_table
        (session_data_key_id session_B) = some session_B) :=
  have hA : ReachableBy fresh_inserts_resident_removes handler_ok 2 registry_A :=
    reachable_insert session_A ReachableBy.init (Or.inr ⟨by decide, by decide⟩)
  have hAB : ReachableBy fresh_inserts_resident_removes handler_ok 2 registry_AB :=
    reachable_insert session_B hA (Or.inr ⟨by decide, by decide⟩)
  have hfd : g_hash_table_lookup registry_AB.session_from_fd_table
      (session_data_key_fd session_A) = some session_A := by decide
  have hid : g_hash_table_lookup registry_AB.session_from_id_table
      (session_data_key_id session_A) = some session_A := by decide
  have hB : ReachableBy fresh_inserts_resident_removes handler_ok 2 registry_A_removed :=
    reachable_remove session_A hAB ⟨hfd, hid⟩
      (remove_present_both registry_AB session_A hfd hid)
  have h := dual_index_consistency_unique_keys handler_ok 2 registry_A_removed hB
  ⟨hB, h.1, h.2.1 session_B⟩

/-- C4 as stated fails. At capacity 2, after A (descriptor 5, id 100) and two
more objects on descriptor 5 (ids 400 and 500) were inserted, none of them
rejected, the descriptor index has 1 entry and the id index 3: the sizes
differ and the id index holds more than max_connections entries. -/
theorem sizes_within_limit_counterexample :
    Reachable handler_ok 2 registry_fd_triplet ∧
    registry_fd_triplet.max_connections = 2 ∧
    g_hash_table_size registry_fd_triplet.session_from_fd_table = 1 ∧
    g_hash_table_size registry_fd_triplet.session_from_id_table = 3 ∧
    (session_manager_insert handler_ok registry_A session_A_fd_twin).ret = 0 ∧
    (session_manager_insert handler_ok registry_fd_twin session_A_fd_triplet).ret = 0 := by
  have hA : Reachable handler_ok 2 registry_A :=
    reachable_insert session_A ReachableBy.init trivial
  have hT : Reachable handler_ok 2 registry_fd_twin :=
    reachable_insert session_A_fd_twin hA trivial
  exact ⟨reachable_insert session_A_fd_triplet hT trivial, by decide, by decide, by decide,
    by decide, by decide⟩

theorem sizes_of_reachable {h : NewSessionHandler} {max_connections : Nat}
    {m : SessionManager} (hr : ReachableBy fresh_inserts h max_connections m) :
    g_hash_table_size m.session_from_fd_table = g_hash_table_size m.session_from_id_table ∧
      g_hash_table_size m.session_from_fd_table ≤ m.max_connections := by
  induction hr with
  | init =>
    simp [session_manager_new, session_manager_set_property, size_new_full]
  | @step m0 m1 op t _ hd hs ih =>
    rcases step_cases hs with ⟨s, hop, hm⟩ | ⟨s, r, hop, hrm, hm⟩ | hm
    · subst hop
      rw [hm]
      by_cases hf : m0.max_connections ≤ g_hash_table_size m0.session_from_fd_table
      · rw [insert_full h m0 s hf]
        exact ih
      · rcases hd with hfull | ⟨hfd, hid⟩
        · exact absurd ((is_full_ret m0).mp hfull) hf
        · rw [insert_not_full h m0 s (by omega)]
          simp only [size_insert_absent _ _ hfd, size_insert_absent _ _ hid]
          omega
    · obtain ⟨v, w, hv, hw, hr1⟩ := remove_some_inv m0 s hrm
      rw [hm, hr1]
      have e1 := size_erase_present _ hv
      have e2 := size_erase_present _ hw
      simp only
      omega
    · rw [hm]
      exact ih

/-- C4, amended: in every state reached from a newly constructed manager by
public operations (insert, both lookups, remove, size, is_full, set_fds) in
which every session inserted while there is room has both keys absent from
their indices, the two indices have the same number of entries and that number
is at most max_connections, which is the value given at construction. -/
theorem sizes_within_limit_fresh_inserts (new_session : NewSessionHandler)
    (max_connections : Nat) (manager : SessionManager)
    (hr : ReachableBy fresh_inserts new_session max_connections manager) :
    g_hash_table_size manager.session_from_fd_table
      = g_hash_table_size manager.session_from_id_table ∧
    g_hash_table_size manager.session_from_id_table ≤ manager.max_connections ∧
    (session_manager_size manager).ret ≤ manager.max_connections ∧
    manager.max_connections = max_connections := by
  obtain ⟨h1, h2⟩ := sizes_of_reachable hr
  refine ⟨h1, ?_, h2, reachableBy_max_connections hr⟩
  omega

/-- C4, amended, at the scenario: A and B inserted with fresh keys at
capacity 2, then C rejected. -/
theorem sizes_within_limit_fresh_inserts_witness :
    ReachableBy fresh_inserts handler_ok 2
      (session_manager_insert handler_ok registry_AB session_C).manager ∧
    g_hash_table_size
        (session_manager_insert handler_ok registry_AB session_C).manager.session_from_fd_table
      = g_hash_table_size
        (session_manager_insert handler_ok registry_AB session_C).manager.session_from_id_table ∧
    g_hash_table_size
        (session_manager_insert handler_ok registry_AB session_C).manager.session_from_id_table
      ≤ (session_manager_insert handler_ok registry_AB session_C).manager.max_connections :=
  have hA : ReachableBy fresh_inserts handler_ok 2 registry_A :=
    reachable_insert session_A ReachableBy.init (Or.inr ⟨by decide, by decide⟩)
  have hAB : ReachableBy fresh_inserts handler_ok 2 registry_AB :=
    reachable_insert session_B hA (Or.inr ⟨by decide, by decide⟩)
  have hABC := reachable_insert session_C hAB (Or.inl (by decide))
  have h := sizes_within_limit_fresh_inserts handler_ok 2 _ hABC
  ⟨hABC, h.1, h.2.1⟩

/-! ## Collecting descriptors -/

theorem foldl_set_fd (l : List (Sigma fun _ : Int => SessionData)) (fds : Finset Int)
    (x : Int) :
    x ∈ l.foldl (fun acc e => set_fd e.1 e.2 acc) fds ↔
      x ∈ fds ∨ ∃ e ∈ l, session_data_receive_fd e.2 = x ∧ 0 ≤ x ∧ x < FD_SETSIZE := by
  induction l generalizing fds with
  | nil => simp
  | cons e rest ih =>
    rw [List.foldl_cons, ih]
    simp only [set_fd, FD_SET, List.mem_cons]
    by_cases hin : 0 ≤ session_data_receive_fd e.2 ∧ session_data_receive_fd e.2 < FD_SETSIZE
    · rw [if_pos hin, Finset.mem_insert]
      constructor
      · rintro ((h | h) | ⟨e1, he1, h⟩)
        · exact Or.inr ⟨e, Or.inl rfl, h.symm, by rw [h]; exact hin⟩
        · exact Or.inl h
        · exact Or.inr ⟨e1, Or.inr he1, h⟩
      · rintro (h | ⟨e1, (he1 | he1), h⟩)
        · exact Or.inl (Or.inr h)
        · subst he1
          exact Or.inl (Or.inl h.1.symm)
        · exact Or.inr ⟨e1, he1, h⟩
    · rw [if_neg hin]
      constructor
      · rintro (h | ⟨e1, he1, h⟩)
        · exact Or.inl h
        · exact Or.inr ⟨e1, Or.inr he1, h⟩
      · rintro (h | ⟨e1, (he1 | he1), h⟩)
        · exact Or.inl h
        · subst he1
          exact absurd (by rw [h.1]; exact h.2) hin
        · exact Or.inr ⟨e1, he1, h⟩

theorem mem_set_fds (m : SessionManager) (fds : Finset Int) (x : Int) :
    x ∈ (session_manager_set_fds m fds).ret ↔
      x ∈ fds ∨ ∃ k v, g_hash_table_lookup m.session_from_fd_table k = some v ∧
        session_data_receive_fd v = x ∧ 0 ≤ x ∧ x < FD_SETSIZE := by
  simp only [session_manager_set_fds, g_hash_table_foreach, foldl_set_fd, g_hash_table_lookup]
  constructor
  · rintro (h | ⟨⟨k, v⟩, he, h⟩)
    · exact Or.inl h
    · exact Or.inr ⟨k, v, AList.mem_lookup_iff.mpr he, h⟩
  · rintro (h | ⟨k, v, he, h⟩)
    · exact Or.inl h
    · exact Or.inr ⟨⟨k, v⟩, AList.mem_lookup_iff.mp he, h⟩

theorem mem_set_fds_in_range (m : SessionManager) (fds : Finset Int) (x : Int)
    (hrange : ∀ k v, g_hash_table_lookup m.session_from_fd_table k = some v →
      0 ≤ session_data_receive_fd v ∧ session_data_receive_fd v < FD_SETSIZE) :
    x ∈ (session_manager_set_fds m fds).ret ↔
      x ∈ fds ∨ ∃ k v, g_hash_table_lookup m.session_from_fd_table k = some v ∧
        session_data_receive_fd v = x := by
  rw [mem_set_fds]
  constructor
  · rintro (h | ⟨k, v, hk, hv, _⟩)
    · exact Or.inl h
    · exact Or.inr ⟨k, v, hk, hv⟩
  · rintro (h | ⟨k, v, hk, hv⟩)
    · exact Or.inl h
    · have hr := hrange k v hk
      rw [hv] at hr
      exact Or.inr ⟨k, v, hk, hv, hr⟩

theorem range_of_entries (m : SessionManager)
    (h : ∀ e ∈ m.session_from_fd_table.nodes.entries,
      0 ≤ session_data_receive_fd e.2 ∧ session_data_receive_fd e.2 < FD_SETSIZE) :
    ∀ k v, g_hash_table_lookup m.session_from_fd_table k = some v →
      0 ≤ session_data_receive_fd v ∧ session_data_receive_fd v < FD_SETSIZE := by
  intro k v hk
  exact h ⟨k, v⟩ (AList.mem_lookup_iff.mp hk)

/-- C20 as stated fails. At capacity 2, after a session with receive
descriptor 1024 was inserted (insert does not look at the descriptor), the
session is stored in the descriptor index, yet a call of
session_manager_set_fds on the empty set gives back the empty set, and a call
on the set holding 3 gives back the set holding 3: an fd_set holds descriptors
below FD_SETSIZE only, so 1024 is not in the result. -/
theorem set_fds_union_counterexample :
    Reachable handler_ok 2 registry_big_fd ∧
    (session_manager_insert handler_ok (session_manager_new 2) session_big_fd).ret = 0 ∧
    g_hash_table_lookup registry_big_fd.session_from_fd_table 1024 = some session_big_fd ∧
    session_data_receive_fd session_big_fd = 1024 ∧
    FD_SETSIZE = 1024 ∧
    (session_manager_set_fds registry_big_fd ∅).ret = ∅ ∧
    (session_manager_set_fds registry_big_fd {3}).ret = {3} :=
  ⟨reachable_insert session_big_fd ReachableBy.init trivial, by decide, by decide,
    by decide, by decide, by decide, by decide⟩

/-- C20, amended: when the receive descriptor of every session stored in the
descriptor index lies in the range an fd_set can hold (0 up to FD_SETSIZE,
exclusive), session_manager_set_fds only adds to the set it is handed: a
descriptor is in the result exactly when it was in the input or is the receive
descriptor of a session in the descriptor index, so the result is the union of
the input with what a call on the empty set collects, every member of the
input is kept, and a second call on the result changes nothing. -/
theorem set_fds_only_adds (manager : SessionManager) (fds : Finset Int)
    (hrange : ∀ k v, g_hash_table_lookup manager.session_from_fd_table k = some v →
      0 ≤ session_data_receive_fd v ∧ session_data_receive_fd v < FD_SETSIZE) :
    (∀ x, x ∈ (session_manager_set_fds manager fds).ret ↔
      x ∈ fds ∨ ∃ k v, g_hash_table_lookup manager.session_from_fd_table k = some v ∧
        session_data_receive_fd v = x) ∧
    (session_manager_set_fds manager fds).ret
      = fds ∪ (session_manager_set_fds manager ∅).ret ∧
    fds ⊆ (session_manager_set_fds manager fds).ret ∧
    (session_manager_set_fds (session_manager_set_fds manager fds).manager
      (session_manager_set_fds manager fds).ret).ret
      = (session_manager_set_fds manager fds).ret := by
  refine ⟨fun x => mem_set_fds_in_range manager fds x hrange, ?_, ?_, ?_⟩
  · ext x
    rw [Finset.mem_union, mem_set_fds, mem_set_fds]
    simp
  · intro x hx
    exact (mem_set_fds manager fds x).mpr (Or.inl hx)
  · ext x
    have hm : (session_manager_set_fds manager fds).manager = manager := rfl
    rw [hm, mem_set_fds, mem_set_fds]
    tauto

/-- C20, amended, at the scenario: with A and B admitted, both descriptors in
range, the set holding 9 and 5 becomes the set of 5, 6 and 9, and a second
call leaves it so. -/
theorem set_fds_only_adds_witness :
    (∀ k v, g_hash_table_lookup registry_AB.session_from_fd_table k = some v →
      0 ≤ session_data_receive_fd v ∧ session_data_receive_fd v < FD_SETSIZE) ∧
    (session_manager_set_fds registry_AB {9, 5}).ret = {5, 6, 9} ∧
    (session_manager_set_fds registry_AB
      (session_manager_set_fds registry_AB {9, 5}).ret).ret
      = (session_manager_set_fds registry_AB {9, 5}).ret ∧
    (session_manager_set_fds registry_AB ∅).ret = {5, 6} :=
  have hrange := range_of_entries registry_AB (by decide)
  ⟨hrange, by decide, (set_fds_only_adds registry_AB {9, 5} hrange).2.2.2, by decide⟩

/-! ## The admission limit -/

/-- C15 as stated fails. On a manager constructed with max_connections 2, the
property setter called for "max-connections" with the value 1 leaves
max_connections at 1; the getter then reports 1. -/
theorem max_connections_setter_counterexample :
    (session_manager_new 2).max_connections = 2 ∧
    (session_manager_set_property (session_manager_new 2) PROP_MAX_CONNECTIONS 1).max_connections
      = 1 ∧
    session_manager_get_property
      (session_manager_set_property (session_manager_new 2) PROP_MAX_CONNECTIONS 1)
      PROP_MAX_CONNECTIONS = some 1 := by
  decide

/-- C15, amended: none of insert, lookup by descriptor, lookup by id, remove,
size, is_full and set_fds changes max_connections, so in every state reached
from a newly constructed manager by these operations it is the value given at
construction. The property setter called for "max-connections" sets
max_connections to the value it is handed and leaves both indices as they
were; called for any other property id it changes nothing. -/
theorem max_connections_changed_only_by_setter (new_session : NewSessionHandler)
    (manager : SessionManager) (max_connections : Nat) :
    (∀ (op : Op) (manager1 : SessionManager) (trace : List Event),
      step new_session op manager = some (manager1, trace) →
        manager1.max_connections = manager.max_connections) ∧
    (Reachable new_session max_connections manager →
      manager.max_connections = max_connections) ∧
    (∀ value : Nat,
      (session_manager_set_property manager PROP_MAX_CONNECTIONS value).max_connections
          = value ∧
        (session_manager_set_property manager PROP_MAX_CONNECTIONS value).session_from_fd_table
          = manager.session_from_fd_table ∧
        (session_manager_set_property manager PROP_MAX_CONNECTIONS value).session_from_id_table
          = manager.session_from_id_table) ∧
    (∀ property_id value : Nat, property_id ≠ PROP_MAX_CONNECTIONS →
      session_manager_set_property manager property_id value = manager) := by
  refine ⟨?_, ?_, ?_, ?_⟩
  · intro op manager1 trace hs
    exact step_max_connections hs
  · intro hr
    exact reachableBy_max_connections hr
  · intro value
    simp [session_manager_set_property]
  · intro property_id value hne
    simp [session_manager_set_property, hne]

/-- C15, amended, at the scenario: at capacity 2, inserting A and B and then
removing A leaves max_connections at 2. -/
theorem max_connections_changed_only_by_setter_witness :
    Reachable handler_ok 2 registry_A_removed ∧
    registry_A_removed.max_connections = 2 :=
  have hA : Reachable handler_ok 2 registry_A :=
    reachable_insert session_A ReachableBy.init trivial
  have hAB : Reachable handler_ok 2 registry_AB := reachable_insert session_B hA trivial
  have hfd : g_hash_table_lookup registry_AB.session_from_fd_table
      (session_data_key_fd session_A) = some session_A := by decide
  have hid : g_hash_table_lookup registry_AB.session_from_id_table
      (session_data_key_id session_A) = some session_A := by decide
  have hB : Reachable handler_ok 2 registry_A_removed :=
    reachable_remove session_A hAB trivial (remove_present_both registry_AB session_A hfd hid)
  ⟨hB, (max_connections_changed_only_by_setter handler_ok registry_A_removed 2).2.1 hB⟩

theorem size_insert_le {d : GDestroyNotify} (t : GHashTable d) (k : Int) (v : SessionData) :
    g_hash_table_size (g_hash_table_insert t k v).1 ≤ g_hash_table_size t + 1 := by
  cases h : g_hash_table_lookup t k with
  | none => rw [size_insert_absent t v h]
  | some w =>
    rw [size_insert_present t v w h]
    exact Nat.le_succ _

theorem size_le_of_reachable {h : NewSessionHandler} {max_connections : Nat}
    {m : SessionManager} (hr : Reachable h max_connections m) :
    g_hash_table_size m.session_from_fd_table ≤ m.max_connections := by
  induction hr with
  | init =>
    simp [session_manager_new, session_manager_set_property, size_new_full]
  | @step m0 m1 op t _ _ hs ih =>
    rcases step_cases hs with ⟨s, _, hm⟩ | ⟨s, r, _, hrm, hm⟩ | hm
    · rw [hm]
      by_cases hf : m0.max_connections ≤ g_hash_table_size m0.session_from_fd_table
      · rw [insert_full h m0 s hf]
        exact ih
      · rw [insert_not_full h m0 s (by omega)]
        have hle := size_insert_le m0.session_from_fd_table (session_data_key_fd s) s
        simp only
        omega
    · obtain ⟨v, w, hv, _, hr1⟩ := remove_some_inv m0 s hrm
      rw [hm, hr1]
      have e1 := size_erase_present _ hv
      simp only
      omega
    · rw [hm]
      exact ih

/-- C19: in every state reached from a newly constructed manager by public
operations on arbitrary sessions, duplicate descriptor or id keys included,
the size (the number of entries of the descriptor index) is at most
max_connections, which is the value given at construction. -/
theorem size_never_exceeds_max (new_session : NewSessionHandler) (max_connections : Nat)
    (manager : SessionManager) (hr : Reachable new_session max_connections manager) :
    (session_manager_size manager).ret ≤ manager.max_connections ∧
    manager.max_connections = max_connections ∧
    (session_manager_size manager).ret ≤ max_connections := by
  have h1 : g_hash_table_size manager.session_from_fd_table ≤ manager.max_connections :=
    size_le_of_reachable hr
  have h2 := reachableBy_max_connections hr
  refine ⟨h1, h2, ?_⟩
  rw [← h2]
  exact h1

/-- C19, at a state with duplicate keys: at capacity 2, after A and two more
objects on the descriptor of A were inserted, the size is 1 while the id index
holds 3 entries. -/
theorem size_never_exceeds_max_witness :
    Reachable handler_ok 2 registry_fd_triplet ∧
    (session_manager_size registry_fd_triplet).ret ≤ registry_fd_triplet.max_connections ∧
    (session_manager_size registry_fd_triplet).ret = 1 ∧
    g_hash_table_size registry_fd_triplet.session_from_id_table = 3 :=
  have hA : Reachable handler_ok 2 registry_A :=
    reachable_insert session_A ReachableBy.init trivial
  have hT : Reachable handler_ok 2 registry_fd_twin :=
    reachable_insert session_A_fd_twin hA trivial
  have hR : Reachable handler_ok 2 registry_fd_triplet :=
    reachable_insert session_A_fd_triplet hT trivial
  ⟨hR, (size_never_exceeds_max handler_ok 2 registry_fd_triplet hR).1, by decide, by decide⟩

/-! ## Duplicate keys and freed capacity -/

theorem value_destroy_null (o : Option SessionData) :
    value_destroy GDestroyNotify.null o = [] := by
  cases o <;> rfl

theorem refs_taken_insert_not_full (m : SessionManager) (s : SessionData) :
    refs_taken ([Event.mutex_lock, Event.hash_table Table.session_from_fd_table,
            Event.object_ref (some s), Event.hash_table Table.session_from_fd_table]
          ++ (g_hash_table_insert m.session_from_fd_table (session_data_key_fd s) s).2
          ++ [Event.hash_table Table.session_from_id_table]
          ++ (g_hash_table_insert m.session_from_id_table (session_data_key_id s) s).2
          ++ [Event.mutex_unlock, Event.signal_emit s]) = [some s] := by
  simp only [refs_taken_append, insert_events, refs_taken_value_destroy]
  simp [refs_taken]

theorem refs_released_insert_not_full (m : SessionManager) (s : SessionData) :
    refs_released ([Event.mutex_lock, Event.hash_table Table.session_from_fd_table,
            Event.object_ref (some s), Event.hash_table Table.session_from_fd_table]
          ++ (g_hash_table_insert m.session_from_fd_table (session_data_key_fd s) s).2
          ++ [Event.hash_table Table.session_from_id_table]
          ++ (g_hash_table_insert m.session_from_id_table (session_data_key_id s) s).2
          ++ [Event.mutex_unlock, Event.signal_emit s])
      = (g_hash_table_lookup m.session_from_id_table (session_data_key_id s)).toList := by
  simp only [insert_events, value_destroy_null]
  cases g_hash_table_lookup m.session_from_id_table (session_data_key_id s) <;>
    simp [refs_released, value_destroy]

/-- C16: an insert into a manager with room is never rejected, whatever keys
the session carries: the handlers' status is returned, the signal is emitted
and one reference is taken. When the descriptor key is already in the
descriptor index, lookup by that descriptor afterwards returns the new session
and the descriptor index has as many entries as before. When the id key is
already in the id index, lookup by that id afterwards returns the new session,
the id index has as many entries as before, and the session that was stored
under the id is released once. -/
theorem insert_duplicate_key_overwrites (new_session : NewSessionHandler)
    (manager : SessionManager) (session : SessionData)
    (hroom : (session_manager_size manager).ret < manager.max_connections) :
    (session_manager_insert new_session manager session).ret
      = new_session (session_manager_insert new_session manager session).manager session ∧
    emitted (session_manager_insert new_session manager session).trace = [session] ∧
    refs_taken (session_manager_insert new_session manager session).trace = [some session] ∧
    (∀ old, g_hash_table_lookup manager.session_from_fd_table
        (session_data_key_fd session) = some old →
      (session_manager_lookup_fd (session_manager_insert new_session manager session).manager
        (session_data_key_fd session)).ret = some session ∧
      (session_manager_size (session_manager_insert new_session manager session).manager).ret
        = (session_manager_size manager).ret) ∧
    (∀ old, g_hash_table_lookup manager.session_from_id_table
        (session_data_key_id session) = some old →
      (session_manager_lookup_id (session_manager_insert new_session manager session).manager
        (session_data_key_id session)).ret = some session ∧
      g_hash_table_size
          (session_manager_insert new_session manager session).manager.session_from_id_table
        = g_hash_table_size manager.session_from_id_table ∧
      refs_released (session_manager_insert new_session manager session).trace = [old]) := by
  have hroom1 : g_hash_table_size manager.session_from_fd_table < manager.max_connections :=
    hroom
  rw [insert_not_full new_session manager session hroom1]
  refine ⟨rfl, emitted_insert_not_full manager session,
    refs_taken_insert_not_full manager session, ?_, ?_⟩
  · intro old hold
    refine ⟨?_, ?_⟩
    · simp [session_manager_lookup_fd, lookup_insert_self]
    · simp [session_manager_size, size_insert_present _ _ old hold]
  · intro old hold
    refine ⟨?_, ?_, ?_⟩
    · simp [session_manager_lookup_id, lookup_insert_self]
    · simp [size_insert_present _ _ old hold]
    · rw [refs_released_insert_not_full, hold]
      rfl

/-- C16, at the manager that holds A at capacity 2: a second object on the
descriptor of A is admitted and replaces A under descriptor 5, with the size
still 1; a second object on the id of A is admitted and replaces A under id
100, and A is released. -/
theorem insert_duplicate_key_overwrites_witness :
    (session_manager_size registry_A).ret < registry_A.max_connections ∧
    g_hash_table_lookup registry_A.session_from_fd_table
      (session_data_key_fd session_A_fd_twin) = some session_A ∧
    (session_manager_lookup_fd
      (session_manager_insert handler_ok registry_A session_A_fd_twin).manager 5).ret
      = some session_A_fd_twin ∧
    (session_manager_size
      (session_manager_insert handler_ok registry_A session_A_fd_twin).manager).ret = 1 ∧
    (session_manager_lookup_id
      (session_manager_insert handler_ok registry_A session_A_id_twin).manager 100).ret
      = some session_A_id_twin ∧
    refs_released (session_manager_insert handler_ok registry_A session_A_id_twin).trace
      = [session_A] :=
  have h1 := insert_duplicate_key_overwrites handler_ok registry_A session_A_fd_twin
    (by decide)
  have h2 := insert_duplicate_key_overwrites handler_ok registry_A session_A_id_twin
    (by decide)
  ⟨by decide, by decide, (h1.2.2.2.1 session_A (by decide)).1,
    (h1.2.2.2.1 session_A (by decide)).2,
    (h2.2.2.2.2 session_A (by decide)).1, (h2.2.2.2.2 session_A (by decide)).2.2⟩

/-- C14: in a manager of capacity at least 1 that is filled to capacity,
removing a resident session returns, after which is_full is false and the size
is max_connections - 1; an insert of a session whose keys are absent from the
manager left by the removal is then admitted and fills the manager again;
lookup by the id of another resident session still returns that session, and
lookup by the descriptor of the removed session finds nothing. -/
theorem removal_frees_capacity (new_session : NewSessionHandler) (manager : SessionManager)
    (removed kept fresh : SessionData)
    (_hpos : 1 ≤ manager.max_connections)
    (hcap : (session_manager_size manager).ret = manager.max_connections)
    (hfd : g_hash_table_lookup manager.session_from_fd_table
      (session_data_key_fd removed) = some removed)
    (hid : g_hash_table_lookup manager.session_from_id_table
      (session_data_key_id removed) = some removed)
    (hkept : g_hash_table_lookup manager.session_from_id_table
      (session_data_key_id kept) = some kept)
    (hne : kept ≠ removed) :
    ∃ r : Outcome Bool, session_manager_remove manager removed = some r ∧
      r.ret = true ∧
      (session_manager_is_full r.manager).ret = false ∧
      (session_manager_size r.manager).ret + 1 = manager.max_connections ∧
      r.manager.max_connections = manager.max_connections ∧
      (session_manager_lookup_id r.manager (session_data_key_id kept)).ret = some kept ∧
      (session_manager_lookup_fd r.manager (session_data_key_fd removed)).ret = none ∧
      (g_hash_table_lookup r.manager.session_from_fd_table
          (session_data_key_fd fresh) = none →
        g_hash_table_lookup r.manager.session_from_id_table
          (session_data_key_id fresh) = none →
        (session_manager_insert new_session r.manager fresh).ret
          = new_session (session_manager_insert new_session r.manager fresh).manager fresh ∧
        emitted (session_manager_insert new_session r.manager fresh).trace = [fresh] ∧
        (session_manager_lookup_fd (session_manager_insert new_session r.manager fresh).manager
          (session_data_key_fd fresh)).ret = some fresh ∧
        (session_manager_lookup_id (session_manager_insert new_session r.manager fresh).manager
          (session_data_key_id fresh)).ret = some fresh ∧
        (session_manager_size (session_manager_insert new_session r.manager fresh).manager).ret
          = manager.max_connections) := by
  have hcap1 : g_hash_table_size manager.session_from_fd_table = manager.max_connections :=
    hcap
  have hsz := size_erase_present _ hfd
  have hkey : session_data_key_id kept ≠ session_data_key_id removed := by
    intro e
    rw [e, hid] at hkept
    exact hne (Option.some.inj hkept).symm
  refine ⟨_, remove_present_both manager removed hfd hid, rfl, ?_, ?_, rfl, ?_, ?_, ?_⟩
  · simp only [session_manager_is_full]
    rw [if_pos (by omega)]
  · simp only [session_manager_size]
    omega
  · simp only [session_manager_lookup_id]
    rw [lookup_erase_other _ hkey, hkept]
  · simp only [session_manager_lookup_fd]
    exact lookup_erase_self _ _
  · intro hf1 hf2
    have hroom : g_hash_table_size
        (⟨manager.session_from_fd_table.nodes.erase (session_data_key_fd removed)⟩ :
          GHashTable GDestroyNotify.null) < manager.max_connections := by omega
    rw [insert_not_full new_session _ fresh hroom]
    refine ⟨rfl, emitted_insert_not_full _ fresh, ?_, ?_, ?_⟩
    · simp [session_manager_lookup_fd, lookup_insert_self]
    · simp [session_manager_lookup_id, lookup_insert_self]
    · dsimp only [session_manager_size] at hf1 ⊢
      rw [size_insert_absent _ _ hf1]
      omega

/-- C14, at the scenario: capacity 2, A (5, 100) and B (6, 200) admitted,
C (7, 300) rejected; removing A returns and leaves size 1 and is_full false;
lookup by id 200 gives B and lookup by descriptor 5 finds nothing; C is then
admitted. -/
theorem removal_frees_capacity_witness :
    1 ≤ registry_AB.max_connections ∧
    (session_manager_size registry_AB).ret = registry_AB.max_connections ∧
    (session_manager_insert handler_ok registry_AB session_C).ret = -1 ∧
    (session_manager_size (session_manager_insert handler_ok registry_AB session_C).manager).ret
      = 2 ∧
    ∃ r : Outcome Bool, session_manager_remove registry_AB session_A = some r ∧
      (session_manager_is_full r.manager).ret = false ∧
      (session_manager_size r.manager).ret + 1 = 2 ∧
      (session_manager_lookup_id r.manager 200).ret = some session_B ∧
      (session_manager_lookup_fd r.manager 5).ret = none ∧
      (session_manager_lookup_fd (session_manager_insert handler_ok r.manager session_C).manager
        7).ret = some session_C :=
  have hfd : g_hash_table_lookup registry_AB.session_from_fd_table
      (session_data_key_fd session_A) = some session_A := by decide
  have hid : g_hash_table_lookup registry_AB.session_from_id_table
      (session_data_key_id session_A) = some session_A := by decide
  have h := removal_frees_capacity handler_ok registry_AB session_A session_B session_C
    (by decide) (by decide) hfd hid (by decide) (by decide)
  ⟨by decide, by decide, by decide, by decide, h.elim fun r hr =>
    have hrm : r.manager = registry_A_removed :=
      congrArg Outcome.manager
        (Option.some.inj (hr.1.symm.trans (remove_present_both registry_AB session_A hfd hid)))
    ⟨r, hr.1, hr.2.2.1, hr.2.2.2.1, hr.2.2.2.2.2.1, hr.2.2.2.2.2.2.1,
      (hr.2.2.2.2.2.2.2 (by rw [hrm]; decide) (by rw [hrm]; decide)).2.2.1⟩⟩

/-! ## Locking -/

theorem insert_events_fd (m : SessionManager) (s : SessionData) :
    (g_hash_table_insert m.session_from_fd_table (session_data_key_fd s) s).2 = [] := by
  rw [insert_events, value_destroy_null]

theorem insert_events_id (m : SessionManager) (s : SessionData) :
    (g_hash_table_insert m.session_from_id_table (session_data_key_id s) s).2 = [] ∨
    ∃ old, (g_hash_table_insert m.session_from_id_table (session_data_key_id s) s).2
      = [Event.object_unref old] := by
  rw [insert_events]
  cases g_hash_table_lookup m.session_from_id_table (session_data_key_id s) with
  | none => exact Or.inl rfl
  | some old => exact Or.inr ⟨old, rfl⟩

theorem remove_trace {m : SessionManager} {s : SessionData} {r : Outcome Bool}
    (h : session_manager_remove m s = some r) :
    ∃ old, r.trace = [Event.mutex_lock, Event.hash_table Table.session_from_fd_table,
      Event.hash_table Table.session_from_id_table, Event.object_unref old,
      Event.mutex_unlock] := by
  cases hfd : g_hash_table_lookup m.session_from_fd_table (session_data_key_fd s) with
  | none =>
    rw [(remove_eq_none_iff m s).mpr (Or.inl hfd)] at h
    cases h
  | some v =>
    cases hid : g_hash_table_lookup m.session_from_id_table (session_data_key_id s) with
    | none =>
      rw [(remove_eq_none_iff m s).mpr (Or.inr hid)] at h
      cases h
    | some w =>
      rw [remove_present_both m s hfd hid] at h
      cases h
      exact ⟨w, rfl⟩

theorem insert_trace_cases (h : NewSessionHandler) (m : SessionManager) (s : SessionData) :
    (session_manager_insert h m s).trace
      = [Event.mutex_lock, Event.hash_table Table.session_from_fd_table,
          Event.mutex_unlock] ∨
    (session_manager_insert h m s).trace
      = [Event.mutex_lock, Event.hash_table Table.session_from_fd_table,
          Event.object_ref (some s), Event.hash_table Table.session_from_fd_table,
          Event.hash_table Table.session_from_id_table,
          Event.mutex_unlock, Event.signal_emit s] ∨
    ∃ old, (session_manager_insert h m s).trace
      = [Event.mutex_lock, Event.hash_table Table.session_from_fd_table,
          Event.object_ref (some s), Event.hash_table Table.session_from_fd_table,
          Event.hash_table Table.session_from_id_table, Event.object_unref old,
          Event.mutex_unlock, Event.signal_emit s] := by
  by_cases hf : m.max_connections ≤ g_hash_table_size m.session_from_fd_table
  · left
    rw [insert_full h m s hf]
  · right
    rw [insert_not_full h m s (by omega)]
    simp only [insert_events_fd]
    rcases insert_events_id m s with h0 | ⟨old, h1⟩
    · left
      rw [h0]
      rfl
    · right
      exact ⟨old, by rw [h1]; rfl⟩

/-- C17: an insert that admits a session performs, in this order and before
anything else follows, the mutex unlock and the emission of new-session; what
comes before them contains no emission, contains the calls on the descriptor
index and on the id index, and has every hash-table call made with the mutex
held; so the signal is emitted with the mutex released and the mutex is not
taken again. Every public operation that returns ends with the mutex released
and emits no signal while the mutex is held. -/
theorem notification_outside_lock (new_session : NewSessionHandler)
    (manager : SessionManager) (session : SessionData) :
    ((session_manager_size manager).ret < manager.max_connections →
      ∃ before : List Event,
        (session_manager_insert new_session manager session).trace
          = before ++ [Event.mutex_unlock, Event.signal_emit session] ∧
        emitted before = [] ∧
        table_accesses before
          = [Table.session_from_fd_table, Table.session_from_fd_table,
              Table.session_from_id_table] ∧
        table_access_locked false before = true ∧
        lock_held before = true) ∧
    emit_unlocked false (session_manager_insert new_session manager session).trace = true ∧
    lock_held (session_manager_insert new_session manager session).trace = false ∧
    (∀ (op : Op) (manager1 : SessionManager) (trace : List Event),
      step new_session op manager = some (manager1, trace) →
        lock_held trace = false ∧ emit_unlocked false trace = true) := by
  have hins : ∀ s : SessionData,
      emit_unlocked false (session_manager_insert new_session manager s).trace = true ∧
      lock_held (session_manager_insert new_session manager s).trace = false := by
    intro s
    rcases insert_trace_cases new_session manager s with h0 | h0 | ⟨old, h0⟩ <;>
      rw [h0] <;> exact ⟨rfl, rfl⟩
  refine ⟨?_, (hins session).1, (hins session).2, ?_⟩
  · intro hroom
    have hroom1 : g_hash_table_size manager.session_from_fd_table
        < manager.max_connections := hroom
    rw [insert_not_full new_session manager session hroom1]
    simp only [insert_events_fd]
    rcases insert_events_id manager session with h0 | ⟨old, h1⟩
    · rw [h0]
      exact ⟨[Event.mutex_lock, Event.hash_table Table.session_from_fd_table,
        Event.object_ref (some session), Event.hash_table Table.session_from_fd_table,
        Event.hash_table Table.session_from_id_table], rfl, rfl, rfl, rfl, rfl⟩
    · rw [h1]
      exact ⟨[Event.mutex_lock, Event.hash_table Table.session_from_fd_table,
        Event.object_ref (some session), Event.hash_table Table.session_from_fd_table,
        Event.hash_table Table.session_from_id_table, Event.object_unref old],
        rfl, rfl, rfl, rfl, rfl⟩
  · intro op manager1 trace hs
    cases op with
    | insert s =>
      simp only [step, Option.some.injEq, Prod.mk.injEq] at hs
      rw [← hs.2]
      exact ⟨(hins s).2, (hins s).1⟩
    | remove s =>
      cases hr : session_manager_remove manager s with
      | none => simp [step, hr] at hs
      | some r =>
        simp only [step, hr, Option.some.injEq, Prod.mk.injEq] at hs
        obtain ⟨old, ht⟩ := remove_trace hr
        rw [← hs.2, ht]
        exact ⟨rfl, rfl⟩
    | lookup_fd k =>
      simp only [step, Option.some.injEq, Prod.mk.injEq] at hs
      rw [← hs.2]
      exact ⟨rfl, rfl⟩
    | lookup_id k =>
      simp only [step, Option.some.injEq, Prod.mk.injEq] at hs
      rw [← hs.2]
      exact ⟨rfl, rfl⟩
    | size =>
      simp only [step, Option.some.injEq, Prod.mk.injEq] at hs
      rw [← hs.2]
      exact ⟨rfl, rfl⟩
    | is_full =>
      simp only [step, Option.some.injEq, Prod.mk.injEq] at hs
      rw [← hs.2]
      exact ⟨rfl, rfl⟩
    | set_fds fds =>
      simp only [step, Option.some.injEq, Prod.mk.injEq] at hs
      rw [← hs.2]
      exact ⟨rfl, rfl⟩

/-- C17, at the scenario: the actions of admitting B into the manager that
holds A, and of rejecting C from the full manager. -/
theorem notification_outside_lock_witness :
    (session_manager_size registry_A).ret < registry_A.max_connections ∧
    (session_manager_insert handler_ok registry_A session_B).trace
      = [Event.mutex_lock, Event.hash_table Table.session_from_fd_table,
          Event.object_ref (some session_B), Event.hash_table Table.session_from_fd_table,
          Event.hash_table Table.session_from_id_table,
          Event.mutex_unlock, Event.signal_emit session_B] ∧
    emit_unlocked false (session_manager_insert handler_ok registry_A session_B).trace
      = true ∧
    lock_held (session_manager_insert handler_ok registry_AB session_C).trace = false :=
  ⟨by decide, by decide,
    (notification_outside_lock handler_ok registry_A session_B).2.1,
    (notification_outside_lock handler_ok registry_AB session_C).2.2.1⟩

/-- C18 as stated fails. On the manager that holds A and B, the only action
of session_manager_size and of session_manager_is_full is a call on the
descriptor index: neither takes the mutex, so that call is made with the
mutex not held. -/
theorem unlocked_size_read_counterexample :
    (session_manager_size registry_AB).trace
      = [Event.hash_table Table.session_from_fd_table] ∧
    table_access_locked false (session_manager_size registry_AB).trace = false ∧
    (session_manager_is_full registry_AB).trace
      = [Event.hash_table Table.session_from_fd_table] ∧
    table_access_locked false (session_manager_is_full registry_AB).trace = false := by
  decide

/-- C18, amended: insert, lookup by descriptor, lookup by id, remove and
set_fds make each of their hash-table calls while holding the mutex, and each
of them calls a hash table; this includes the size read that insert makes
through is_full. -/
theorem index_access_under_lock (new_session : NewSessionHandler)
    (manager : SessionManager) (session : SessionData) (fd_in id : Int)
    (fds : Finset Int) :
    table_access_locked false (session_manager_insert new_session manager session).trace
      = true ∧
    table_access_locked false (session_manager_lookup_fd manager fd_in).trace = true ∧
    table_access_locked false (session_manager_lookup_id manager id).trace = true ∧
    (∀ r : Outcome Bool, session_manager_remove manager session = some r →
      table_access_locked false r.trace = true ∧
      table_accesses r.trace = [Table.session_from_fd_table, Table.session_from_id_table]) ∧
    table_access_locked false (session_manager_set_fds manager fds).trace = true ∧
    (table_accesses (session_manager_insert new_session manager session).trace).head?
      = some Table.session_from_fd_table ∧
    table_accesses (session_manager_lookup_fd manager fd_in).trace
      = [Table.session_from_fd_table] ∧
    table_accesses (session_manager_lookup_id manager id).trace
      = [Table.session_from_id_table] ∧
    table_accesses (session_manager_set_fds manager fds).trace
      = [Table.session_from_fd_table] := by
  refine ⟨?_, rfl, rfl, ?_, rfl, ?_, rfl, rfl, rfl⟩
  · rcases insert_trace_cases new_session manager session with h0 | h0 | ⟨old, h0⟩ <;>
      rw [h0] <;> rfl
  · intro r hr
    obtain ⟨old, ht⟩ := remove_trace hr
    rw [ht]
    exact ⟨rfl, rfl⟩
  · rcases insert_trace_cases new_session manager session with h0 | h0 | ⟨old, h0⟩ <;>
      rw [h0] <;> rfl

/-- C18, amended, at the scenario: removing A from the manager that holds A
and B calls both indices between the lock and the unlock. -/
theorem index_access_under_lock_witness :
    ∃ r : Outcome Bool, session_manager_remove registry_AB session_A = some r ∧
      r.trace = [Event.mutex_lock, Event.hash_table Table.session_from_fd_table,
        Event.hash_table Table.session_from_id_table, Event.object_unref session_A,
        Event.mutex_unlock] ∧
      table_access_locked false r.trace = true :=
  have hfd : g_hash_table_lookup registry_AB.session_from_fd_table
      (session_data_key_fd session_A) = some session_A := by decide
  have hid : g_hash_table_lookup registry_AB.session_from_id_table
      (session_data_key_id session_A) = some session_A := by decide
  have hr := remove_present_both registry_AB session_A hfd hid
  ⟨_, hr, rfl,
    ((index_access_under_lock handler_ok registry_AB session_A 5 100 ∅).2.2.2.1 _ hr).1⟩

/-! ## Reference accounting -/

theorem registry_refs_append (log : List (Op × List Event)) (entry : Op × List Event)
    (s : SessionData) :
    registry_refs (log ++ [entry]) s = registry_refs log s + entry_refs s entry := by
  simp [registry_refs]

theorem reachableBy_of_reachableWith {D : SessionManager → Op → Prop}
    {h : NewSessionHandler} {max_connections : Nat} {m : SessionManager}
    {log : List (Op × List Event)} (hr : ReachableWith D h max_connections m log) :
    ReachableBy D h max_connections m := by
  induction hr with
  | init => exact ReachableBy.init
  | step _ hd hs ih => exact ReachableBy.step ih hd hs

theorem entry_refs_insert_full (h : NewSessionHandler) (m : SessionManager)
    (s0 s : SessionData)
    (hf : m.max_connections ≤ g_hash_table_size m.session_from_fd_table) :
    entry_refs s (Op.insert s0, (session_manager_insert h m s0).trace) = 0 := by
  rw [insert_full h m s0 hf]
  simp [entry_refs]

theorem entry_refs_insert_fresh (h : NewSessionHandler) (m : SessionManager)
    (s0 s : SessionData)
    (hroom : g_hash_table_size m.session_from_fd_table < m.max_connections)
    (hfd : g_hash_table_lookup m.session_from_fd_table (session_data_key_fd s0) = none)
    (hid : g_hash_table_lookup m.session_from_id_table (session_data_key_id s0) = none) :
    entry_refs s (Op.insert s0, (session_manager_insert h m s0).trace)
      = if s0 = s then 1 else 0 := by
  rw [insert_not_full h m s0 hroom, events_insert_absent _ _ hfd, events_insert_absent _ _ hid]
  by_cases e : s0 = s
  · subst e
    simp [entry_refs]
  · simp [entry_refs, List.count_cons, e]

theorem entry_refs_remove_resident (m : SessionManager) (s0 s : SessionData)
    {r : Outcome Bool}
    (hid : g_hash_table_lookup m.session_from_id_table (session_data_key_id s0) = some s0)
    (hr : session_manager_remove m s0 = some r) :
    entry_refs s (Op.remove s0, r.trace) = if s0 = s then -1 else 0 := by
  obtain ⟨v, w, hv, hw, _⟩ := remove_some_inv m s0 hr
  rw [remove_present_both m s0 hv hw] at hr
  rw [hid] at hw
  cases hw
  cases hr
  by_cases e : s0 = s
  · subst e
    simp [entry_refs]
  · simp [entry_refs, List.count_cons, e]

theorem entry_refs_other {h : NewSessionHandler} {op : Op} {m m1 : SessionManager}
    {t : List Event} (s : SessionData) (hs : step h op m = some (m1, t))
    (hi : ∀ s0, op ≠ Op.insert s0) (hrm : ∀ s0, op ≠ Op.remove s0) :
    entry_refs s (op, t) = 0 := by
  cases op with
  | insert s0 => exact absurd rfl (hi s0)
  | remove s0 => exact absurd rfl (hrm s0)
  | lookup_fd k =>
    simp only [step, Option.some.injEq, Prod.mk.injEq] at hs
    rw [← hs.2]
    simp [entry_refs, session_manager_lookup_fd]
  | lookup_id k =>
    simp only [step, Option.some.injEq, Prod.mk.injEq] at hs
    rw [← hs.2]
    simp [entry_refs, session_manager_lookup_id]
  | size =>
    simp only [step, Option.some.injEq, Prod.mk.injEq] at hs
    rw [← hs.2]
    simp [entry_refs, session_manager_size]
  | is_full =>
    simp only [step, Option.some.injEq, Prod.mk.injEq] at hs
    rw [← hs.2]
    simp [entry_refs, session_manager_is_full]
  | set_fds fds =>
    simp only [step, Option.some.injEq, Prod.mk.injEq] at hs
    rw [← hs.2]
    simp [entry_refs, session_manager_set_fds]

theorem refs_of_reachable {h : NewSessionHandler} {max_connections : Nat}
    {m : SessionManager} {log : List (Op × List Event)}
    (hr : ReachableWith fresh_inserts_resident_removes h max_connections m log)
    (s : SessionData) :
    registry_refs log s =
      if g_hash_table_lookup m.session_from_fd_table (session_data_key_fd s) = some s
      then 1 else 0 := by
  induction hr with
  | init =>
    simp [registry_refs, session_manager_new, session_manager_set_property, lookup_new_full]
  | @step m0 m1 log0 op t hr0 hd hs ih =>
    have hagree : IndicesAgree m0 := agree_of_reachable (reachableBy_of_reachableWith hr0)
    rw [registry_refs_append, ih]
    cases op with
    | insert s0 =>
      simp only [step, Option.some.injEq, Prod.mk.injEq] at hs
      obtain ⟨hm, ht⟩ := hs
      rw [← hm, ← ht]
      by_cases hf : m0.max_connections ≤ g_hash_table_size m0.session_from_fd_table
      · rw [entry_refs_insert_full h m0 s0 s hf, insert_full h m0 s0 hf]
        simp
      · have hroom : g_hash_table_size m0.session_from_fd_table < m0.max_connections := by
          omega
        rcases hd with hfull | ⟨hfd, hid⟩
        · exact absurd ((is_full_ret m0).mp hfull) hf
        · rw [entry_refs_insert_fresh h m0 s0 s hroom hfd hid, insert_not_full h m0 s0 hroom]
          by_cases e : s0 = s
          · subst e
            simp [hfd, lookup_insert_self]
          · by_cases hk : session_data_key_fd s = session_data_key_fd s0
            · have h1 : ¬ g_hash_table_lookup m0.session_from_fd_table
                  (session_data_key_fd s) = some s := by
                rw [hk, hfd]; simp
              have h2 : ¬ g_hash_table_lookup
                  (g_hash_table_insert m0.session_from_fd_table
                    (session_data_key_fd s0) s0).1 (session_data_key_fd s) = some s := by
                rw [hk, lookup_insert_self]
                intro hx
                exact e (Option.some.inj hx)
              simp [e, h1, h2]
            · simp [e, lookup_insert_other _ _ hk]
    | remove s0 =>
      cases hrm : session_manager_remove m0 s0 with
      | none => simp [step, hrm] at hs
      | some r =>
        simp only [step, hrm, Option.some.injEq, Prod.mk.injEq] at hs
        obtain ⟨hm, ht⟩ := hs
        obtain ⟨hfd, hid⟩ := hd
        obtain ⟨v, w, _, _, hr1⟩ := remove_some_inv m0 s0 hrm
        rw [← hm, ← ht, entry_refs_remove_resident m0 s0 s hid hrm, hr1]
        by_cases e : s0 = s
        · subst e
          simp [hfd, lookup_erase_self]
        · by_cases hk : session_data_key_fd s = session_data_key_fd s0
          · have h1 : ¬ g_hash_table_lookup m0.session_from_fd_table
                (session_data_key_fd s) = some s := by
              rw [hk, hfd]
              intro hx
              exact e (Option.some.inj hx)
            have h2 : ¬ g_hash_table_lookup
                (⟨m0.session_from_fd_table.nodes.erase (session_data_key_fd s0)⟩ :
                  GHashTable GDestroyNotify.null) (session_data_key_fd s) = some s := by
              rw [hk, lookup_erase_self]; simp
            simp [e, h1, h2]
          · simp [e, lookup_erase_other _ hk]
    | lookup_fd k =>
      rw [entry_refs_other s hs (by intro s0; simp) (by intro s0; simp)]
      simp only [step, Option.some.injEq, Prod.mk.injEq] at hs
      rw [← hs.1]
      simp [session_manager_lookup_fd]
    | lookup_id k =>
      rw [entry_refs_other s hs (by intro s0; simp) (by intro s0; simp)]
      simp only [step, Option.some.injEq, Prod.mk.injEq] at hs
      rw [← hs.1]
      simp [session_manager_lookup_id]
    | size =>
      rw [entry_refs_other s hs (by intro s0; simp) (by intro s0; simp)]
      simp only [step, Option.some.injEq, Prod.mk.injEq] at hs
      rw [← hs.1]
      simp [session_manager_size]
    | is_full =>
      rw [entry_refs_other s hs (by intro s0; simp) (by intro s0; simp)]
      simp only [step, Option.some.injEq, Prod.mk.injEq] at hs
      rw [← hs.1]
      simp [session_manager_is_full]
    | set_fds fds =>
      rw [entry_refs_other s hs (by intro s0; simp) (by intro s0; simp)]
      simp only [step, Option.some.injEq, Prod.mk.injEq] at hs
      rw [← hs.1]
      simp [session_manager_set_fds]

theorem reachableWith_insert {D : SessionManager → Op → Prop} {h : NewSessionHandler}
    {max_connections : Nat} {m : SessionManager} {log : List (Op × List Event)}
    (s : SessionData) (hr : ReachableWith D h max_connections m log)
    (hd : D m (Op.insert s)) :
    ReachableWith D h max_connections (session_manager_insert h m s).manager
      (log ++ [(Op.insert s, (session_manager_insert h m s).trace)]) :=
  ReachableWith.step hr hd rfl

theorem reachableWith_lookup_fd {D : SessionManager → Op → Prop} {h : NewSessionHandler}
    {max_connections : Nat} {m : SessionManager} {log : List (Op × List Event)}
    (fd_in : Int) (hr : ReachableWith D h max_connections m log)
    (hd : D m (Op.lookup_fd fd_in)) :
    ReachableWith D h max_connections m
      (log ++ [(Op.lookup_fd fd_in, (session_manager_lookup_fd m fd_in).trace)]) :=
  ReachableWith.step hr hd rfl

theorem reachableWith_remove {D : SessionManager → Op → Prop} {h : NewSessionHandler}
    {max_connections : Nat} {m : SessionManager} {log : List (Op × List Event)}
    (s : SessionData) {r : Outcome Bool} (hr : ReachableWith D h max_connections m log)
    (hd : D m (Op.remove s)) (hrm : session_manager_remove m s = some r) :
    ReachableWith D h max_connections r.manager (log ++ [(Op.remove s, r.trace)]) :=
  have hs : step h (Op.remove s) m = some (r.manager, r.trace) := by
    simp only [step, hrm]
  ReachableWith.step hr hd hs

/-- C13 as stated fails. At capacity 2, after A (descriptor 5, id 100) and a
second object on id 100 (descriptor 8) were inserted, A is still stored in the
descriptor index under 5, but the id index has released it: the registry took
one reference on A and released one. After A and B were inserted and remove
was handed an object with the descriptor of A and the id of B, B is still
stored in the descriptor index under 6, with its one reference released. -/
theorem registry_reference_counterexample :
    ReachableWith (fun _ _ => True) handler_ok 2 registry_id_twin log_id_twin ∧
    g_hash_table_lookup registry_id_twin.session_from_fd_table 5 = some session_A ∧
    registry_refs log_id_twin session_A = 0 ∧
    ReachableWith (fun _ _ => True) handler_ok 2 registry_mixed_removed log_mixed_removed ∧
    g_hash_table_lookup registry_mixed_removed.session_from_fd_table 6 = some session_B ∧
    registry_refs log_mixed_removed session_B = 0 := by
  have hA : ReachableWith (fun _ _ => True) handler_ok 2 registry_A _ :=
    reachableWith_insert session_A ReachableWith.init trivial
  have hAB : ReachableWith (fun _ _ => True) handler_ok 2 registry_AB _ :=
    reachableWith_insert session_B hA trivial
  have hrm := remove_present_both registry_AB session_mixed
    (show g_hash_table_lookup registry_AB.session_from_fd_table
      (session_data_key_fd session_mixed) = some session_A by decide)
    (show g_hash_table_lookup registry_AB.session_from_id_table
      (session_data_key_id session_mixed) = some session_B by decide)
  exact ⟨reachableWith_insert session_A_id_twin hA trivial, by decide, by decide,
    reachableWith_remove session_mixed hAB trivial hrm, by decide, by decide⟩

/-- C13, amended: in every state reached from a newly constructed manager by
public operations in which every session inserted while there is room has both
keys absent, and every session removed is the object stored under its own keys
in both indices, a session stored in either index holds exactly one reference
of the registry (references taken by insert minus references released by the
id index), however many lookups were made, and a session stored in neither
index holds none. -/
theorem registry_holds_one_reference (new_session : NewSessionHandler)
    (max_connections : Nat) (manager : SessionManager) (log : List (Op × List Event))
    (session : SessionData)
    (hr : ReachableWith fresh_inserts_resident_removes new_session max_connections
      manager log) :
    (((∃ k, g_hash_table_lookup manager.session_from_fd_table k = some session) ∨
        (∃ k, g_hash_table_lookup manager.session_from_id_table k = some session)) →
      registry_refs log session = 1) ∧
    (¬ ((∃ k, g_hash_table_lookup manager.session_from_fd_table k = some session) ∨
        (∃ k, g_hash_table_lookup manager.session_from_id_table k = some session)) →
      registry_refs log session = 0) := by
  obtain ⟨_, h1, h2⟩ := agree_of_reachable (reachableBy_of_reachableWith hr)
  have hrefs := refs_of_reachable hr session
  constructor
  · intro hp
    have hin : g_hash_table_lookup manager.session_from_fd_table
        (session_data_key_fd session) = some session := by
      rcases hp with ⟨k, hk⟩ | ⟨k, hk⟩
      · have hkey := (h1 k session hk).1
        rw [hkey]
        exact hk
      · exact (h2 k session hk).2
    rw [hrefs, if_pos hin]
  · intro hp
    have hout : ¬ g_hash_table_lookup manager.session_from_fd_table
        (session_data_key_fd session) = some session :=
      fun hx => hp (Or.inl ⟨_, hx⟩)
    rw [hrefs, if_neg hout]

/-- C13, amended, at the scenario: after A was inserted, looked up twice by
its descriptor, and B was inserted, the registry holds one reference on A and
none on C, while the log holds three calls of g_object_ref on A. -/
theorem registry_holds_one_reference_witness :
    ReachableWith fresh_inserts_resident_removes handler_ok 2 registry_AB
      log_AB_with_lookups ∧
    registry_refs log_AB_with_lookups session_A = 1 ∧
    registry_refs log_AB_with_lookups session_C = 0 ∧
    (refs_taken (log_AB_with_lookups.map Prod.snd).flatten).count (some session_A) = 3 :=
  have hA : ReachableWith fresh_inserts_resident_removes handler_ok 2 registry_A _ :=
    reachableWith_insert session_A ReachableWith.init (Or.inr ⟨by decide, by decide⟩)
  have hA1 := reachableWith_lookup_fd 5 hA trivial
  have hA2 := reachableWith_lookup_fd 5 hA1 trivial
  have hAB : ReachableWith fresh_inserts_resident_removes handler_ok 2 registry_AB
      log_AB_with_lookups :=
    reachableWith_insert session_B hA2 (Or.inr ⟨by decide, by decide⟩)
  ⟨hAB,
    (registry_holds_one_reference handler_ok 2 registry_AB log_AB_with_lookups session_A
      hAB).1 (Or.inl ⟨5, by decide⟩),
    (registry_holds_one_reference handler_ok 2 registry_AB log_AB_with_lookups session_C
      hAB).2 (by
        rintro (⟨k, hk⟩ | ⟨k, hk⟩)
        · have h7 := (agree_of_reachable (reachableBy_of_reachableWith hAB)).2.1 k _ hk
          have h8 : g_hash_table_lookup registry_AB.session_from_fd_table 7 = none := by
            decide
          rw [← h7.1] at hk
          rw [show session_data_key_fd session_C = 7 from rfl, h8] at hk
          cases hk
        · have h7 := (agree_of_reachable (reachableBy_of_reachableWith hAB)).2.2 k _ hk
          have h8 : g_hash_table_lookup registry_AB.session_from_fd_table 7 = none := by
            decide
          rw [show session_data_key_fd session_C = 7 from rfl, h8] at h7
          cases h7.2),
    by decide⟩

/-! ## Insert all, then remove all -/

theorem refs_released_append (a b : List Event) :
    refs_released (a ++ b) = refs_released a ++ refs_released b := by
  simp [refs_released, List.filterMap_append]

theorem run_cons_some {h : NewSessionHandler} {op : Op} {ops : List Op}
    {m m1 m2 : SessionManager} {t1 t2 : List Event}
    (h1 : step h op m = some (m1, t1)) (h2 : run h ops m1 = some (m2, t2)) :
    run h (op :: ops) m = some (m2, t1 ++ t2) := by
  simp only [run, h1, h2]

theorem run_append_some {h : NewSessionHandler} (ops1 ops2 : List Op)
    {m m1 m2 : SessionManager} {t1 t2 : List Event}
    (h1 : run h ops1 m = some (m1, t1)) (h2 : run h ops2 m1 = some (m2, t2)) :
    run h (ops1 ++ ops2) m = some (m2, t1 ++ t2) := by
  induction ops1 generalizing m t1 with
  | nil =>
    simp only [run, Option.some.injEq, Prod.mk.injEq] at h1
    obtain ⟨hm, ht⟩ := h1
    subst hm
    subst ht
    simpa using h2
  | cons op rest ih =>
    simp only [run] at h1
    cases hs : step h op m with
    | none => simp [hs] at h1
    | some p =>
      obtain ⟨ma, ta⟩ := p
      simp only [hs] at h1
      cases hrest : run h rest ma with
      | none => simp [hrest] at h1
      | some q =>
        obtain ⟨mb, tb⟩ := q
        simp only [hrest, Option.some.injEq, Prod.mk.injEq] at h1
        obtain ⟨hm, ht⟩ := h1
        subst hm
        subst ht
        have := ih hrest
        rw [List.cons_append, run_cons_some hs this, List.append_assoc]

theorem holds_new (max_connections : Nat) :
    HoldsExactly (session_manager_new max_connections) [] := by
  refine ⟨?_, ?_, rfl, rfl⟩
  · intro k v
    simp [session_manager_new, session_manager_set_property, lookup_new_full]
  · intro k v
    simp [session_manager_new, session_manager_set_property, lookup_new_full]

theorem holds_absent_fd {m : SessionManager} {L : List SessionData} (hh : HoldsExactly m L)
    {s : SessionData} (hfresh : ∀ v ∈ L, session_data_key_fd v ≠ session_data_key_fd s) :
    g_hash_table_lookup m.session_from_fd_table (session_data_key_fd s) = none := by
  cases hl : g_hash_table_lookup m.session_from_fd_table (session_data_key_fd s) with
  | none => rfl
  | some v =>
    have := (hh.1 _ v).mp hl
    exact absurd this.2 (hfresh v this.1)

theorem holds_absent_id {m : SessionManager} {L : List SessionData} (hh : HoldsExactly m L)
    {s : SessionData} (hfresh : ∀ v ∈ L, session_data_key_id v ≠ session_data_key_id s) :
    g_hash_table_lookup m.session_from_id_table (session_data_key_id s) = none := by
  cases hl : g_hash_table_lookup m.session_from_id_table (session_data_key_id s) with
  | none => rfl
  | some v =>
    have := (hh.2.1 _ v).mp hl
    exact absurd this.2 (hfresh v this.1)

theorem holds_insert (h : NewSessionHandler) {m : SessionManager} {L : List SessionData}
    (hh : HoldsExactly m L) (s : SessionData)
    (hroom : g_hash_table_size m.session_from_fd_table < m.max_connections)
    (hfd : ∀ v ∈ L, session_data_key_fd v ≠ session_data_key_fd s)
    (hid : ∀ v ∈ L, session_data_key_id v ≠ session_data_key_id s) :
    HoldsExactly (session_manager_insert h m s).manager (s :: L) := by
  have hafd := holds_absent_fd hh hfd
  have haid := holds_absent_id hh hid
  obtain ⟨h1, h2, h3, h4⟩ := hh
  rw [insert_not_full h m s hroom]
  refine ⟨?_, ?_, ?_, ?_⟩
  · intro k v
    by_cases hk : k = session_data_key_fd s
    · subst hk
      simp only [lookup_insert_self, Option.some.injEq, List.mem_cons]
      constructor
      · intro e
        subst e
        exact ⟨Or.inl rfl, rfl⟩
      · rintro ⟨hv | hv, hkey⟩
        · exact hv.symm
        · exact absurd hkey (hfd v hv)
    · simp only [lookup_insert_other _ _ hk, h1, List.mem_cons]
      constructor
      · rintro ⟨hv, hkey⟩
        exact ⟨Or.inr hv, hkey⟩
      · rintro ⟨hv | hv, hkey⟩
        · subst hv
          exact absurd hkey.symm hk
        · exact ⟨hv, hkey⟩
  · intro k v
    by_cases hk : k = session_data_key_id s
    · subst hk
      simp only [lookup_insert_self, Option.some.injEq, List.mem_cons]
      constructor
      · intro e
        subst e
        exact ⟨Or.inl rfl, rfl⟩
      · rintro ⟨hv | hv, hkey⟩
        · exact hv.symm
        · exact absurd hkey (hid v hv)
    · simp only [lookup_insert_other _ _ hk, h2, List.mem_cons]
      constructor
      · rintro ⟨hv, hkey⟩
        exact ⟨Or.inr hv, hkey⟩
      · rintro ⟨hv | hv, hkey⟩
        · subst hv
          exact absurd hkey.symm hk
        · exact ⟨hv, hkey⟩
  · simp only [size_insert_absent _ _ hafd, h3, List.length_cons]
  · simp only [size_insert_absent _ _ haid, h4, List.length_cons]

theorem holds_remove {m : SessionManager} {L : List SessionData} (hh : HoldsExactly m L)
    (hfd : (L.map session_data_key_fd).Nodup) (hid : (L.map session_data_key_id).Nodup)
    {s : SessionData} (hs : s ∈ L) :
    HoldsExactly
      { m with
        session_from_fd_table := ⟨m.session_from_fd_table.nodes.erase (session_data_key_fd s)⟩
        session_from_id_table :=
          ⟨m.session_from_id_table.nodes.erase (session_data_key_id s)⟩ }
      (L.erase s) := by
  have hnd : L.Nodup := List.Nodup.of_map _ hfd
  have hpf : g_hash_table_lookup m.session_from_fd_table (session_data_key_fd s) = some s :=
    (hh.1 _ s).mpr ⟨hs, rfl⟩
  have hpi : g_hash_table_lookup m.session_from_id_table (session_data_key_id s) = some s :=
    (hh.2.1 _ s).mpr ⟨hs, rfl⟩
  have e1 := size_erase_present _ hpf
  have e2 := size_erase_present _ hpi
  have hlen : (L.erase s).length + 1 = L.length := by
    rw [List.length_erase_of_mem hs]
    have := List.length_pos_of_mem hs
    omega
  obtain ⟨h1, h2, h3, h4⟩ := hh
  refine ⟨?_, ?_, ?_, ?_⟩
  · intro k v
    simp only
    by_cases hk : k = session_data_key_fd s
    · subst hk
      rw [lookup_erase_self]
      constructor
      · intro hx
        cases hx
      · rintro ⟨hv, hkey⟩
        have hvL : v ∈ L := List.mem_of_mem_erase hv
        have hvs : v = s := List.inj_on_of_nodup_map hfd hvL hs hkey
        rw [hvs] at hv
        exact absurd hv (List.Nodup.not_mem_erase hnd)
    · rw [lookup_erase_other _ hk, h1, hnd.mem_erase_iff]
      constructor
      · rintro ⟨hv, hkey⟩
        refine ⟨⟨?_, hv⟩, hkey⟩
        intro e
        subst e
        exact hk hkey.symm
      · rintro ⟨⟨_, hv⟩, hkey⟩
        exact ⟨hv, hkey⟩
  · intro k v
    simp only
    by_cases hk : k = session_data_key_id s
    · subst hk
      rw [lookup_erase_self]
      constructor
      · intro hx
        cases hx
      · rintro ⟨hv, hkey⟩
        have hvL : v ∈ L := List.mem_of_mem_erase hv
        have hvs : v = s := List.inj_on_of_nodup_map hid hvL hs hkey
        rw [hvs] at hv
        exact absurd hv (List.Nodup.not_mem_erase hnd)
    · rw [lookup_erase_other _ hk, h2, hnd.mem_erase_iff]
      constructor
      · rintro ⟨hv, hkey⟩
        refine ⟨⟨?_, hv⟩, hkey⟩
        intro e
        subst e
        exact hk hkey.symm
      · rintro ⟨⟨_, hv⟩, hkey⟩
        exact ⟨hv, hkey⟩
  · simp only
    omega
  · simp only
    omega

theorem count_some_map (l : List SessionData) (s : SessionData) :
    (l.map some).count (some s) = l.count s := by
  induction l with
  | nil => rfl
  | cons a rest ih =>
    by_cases e : a = s
    · subst e
      simp [ih]
    · have e1 : some s ≠ some a := fun hx => e (Option.some.inj hx).symm
      have e2 : s ≠ a := fun hx => e hx.symm
      rw [List.map_cons, List.count_cons_of_ne e1, List.count_cons_of_ne e2, ih]

theorem insert_phase (h : NewSessionHandler) (sessions : List SessionData) :
    ∀ (m : SessionManager) (L : List SessionData), HoldsExactly m L →
      L.length + sessions.length ≤ m.max_connections →
      (sessions.map session_data_key_fd).Nodup →
      (sessions.map session_data_key_id).Nodup →
      (∀ s ∈ sessions, ∀ v ∈ L, session_data_key_fd v ≠ session_data_key_fd s) →
      (∀ s ∈ sessions, ∀ v ∈ L, session_data_key_id v ≠ session_data_key_id s) →
      ∃ m1 t, run h (sessions.map Op.insert) m = some (m1, t) ∧
        HoldsExactly m1 (sessions.reverse ++ L) ∧
        m1.max_connections = m.max_connections ∧
        refs_taken t = sessions.map some ∧ refs_released t = [] := by
  induction sessions with
  | nil =>
    intro m L hh _ _ _ _ _
    exact ⟨m, [], rfl, by simpa using hh, rfl, rfl, rfl⟩
  | cons s rest ih =>
    intro m L hh hlen hfd hid hffd hfid
    have hroom : g_hash_table_size m.session_from_fd_table < m.max_connections := by
      rw [hh.2.2.1]
      simp only [List.length_cons] at hlen
      omega
    have hsfd : ∀ v ∈ L, session_data_key_fd v ≠ session_data_key_fd s :=
      hffd s (List.mem_cons_self _ _)
    have hsid : ∀ v ∈ L, session_data_key_id v ≠ session_data_key_id s :=
      hfid s (List.mem_cons_self _ _)
    have hh1 := holds_insert h hh s hroom hsfd hsid
    have hafd := holds_absent_fd hh hsfd
    have haid := holds_absent_id hh hsid
    rw [List.map_cons, List.nodup_cons] at hfd hid
    have hmax := insert_max_connections h m s
    obtain ⟨m1, t, hrun, hhold, hm1, ht1, ht2⟩ :=
      ih (session_manager_insert h m s).manager (s :: L) hh1
        (by rw [hmax]; simp only [List.length_cons] at hlen ⊢; omega)
        hfd.2 hid.2
        (by
          intro s1 hs1 v hv
          rcases List.mem_cons.mp hv with e | hv1
          · subst e
            intro e1
            exact hfd.1 (List.mem_map.mpr ⟨s1, hs1, e1.symm⟩)
          · exact hffd s1 (List.mem_cons_of_mem _ hs1) v hv1)
        (by
          intro s1 hs1 v hv
          rcases List.mem_cons.mp hv with e | hv1
          · subst e
            intro e1
            exact hid.1 (List.mem_map.mpr ⟨s1, hs1, e1.symm⟩)
          · exact hfid s1 (List.mem_cons_of_mem _ hs1) v hv1)
    have hstep : step h (Op.insert s) m
        = some ((session_manager_insert h m s).manager,
            (session_manager_insert h m s).trace) := rfl
    refine ⟨m1, (session_manager_insert h m s).trace ++ t, ?_, ?_, ?_, ?_, ?_⟩
    · rw [List.map_cons]
      exact run_cons_some hstep hrun
    · simpa using hhold
    · rw [hm1, hmax]
    · rw [refs_taken_append, ht1, insert_not_full h m s hroom,
        refs_taken_insert_not_full m s]
      rfl
    · rw [refs_released_append, ht2, insert_not_full h m s hroom,
        refs_released_insert_not_full m s, haid]
      rfl

theorem remove_phase (h : NewSessionHandler) (order : List SessionData) :
    ∀ (m : SessionManager) (L : List SessionData), HoldsExactly m L →
      (L.map session_data_key_fd).Nodup → (L.map session_data_key_id).Nodup →
      order.Perm L →
      ∃ m1 t, run h (order.map Op.remove) m = some (m1, t) ∧
        HoldsExactly m1 [] ∧ refs_taken t = [] ∧ refs_released t = order := by
  induction order with
  | nil =>
    intro m L hh _ _ hperm
    have hL : L = [] := List.Perm.eq_nil (List.Perm.symm hperm)
    subst hL
    exact ⟨m, [], rfl, hh, rfl, rfl⟩
  | cons s rest ih =>
    intro m L hh hfd hid hperm
    have hs : s ∈ L := List.Perm.subset hperm (List.mem_cons_self _ _)
    have hpf : g_hash_table_lookup m.session_from_fd_table (session_data_key_fd s)
        = some s := (hh.1 _ s).mpr ⟨hs, rfl⟩
    have hpi : g_hash_table_lookup m.session_from_id_table (session_data_key_id s)
        = some s := (hh.2.1 _ s).mpr ⟨hs, rfl⟩
    have hrm := remove_present_both m s hpf hpi
    have hh1 := holds_remove hh hfd hid hs
    have hrest : rest.Perm (L.erase s) :=
      List.Perm.cons_inv (List.Perm.trans hperm (List.perm_cons_erase hs))
    obtain ⟨m1, t, hrun, hhold, ht1, ht2⟩ :=
      ih _ (L.erase s) hh1
        (List.Nodup.sublist (List.Sublist.map _ (List.erase_sublist s L)) hfd)
        (List.Nodup.sublist (List.Sublist.map _ (List.erase_sublist s L)) hid)
        hrest
    have hstep : step h (Op.remove s) m
        = some
          ({ m with
              session_from_fd_table :=
                ⟨m.session_from_fd_table.nodes.erase (session_data_key_fd s)⟩
              session_from_id_table :=
                ⟨m.session_from_id_table.nodes.erase (session_data_key_id s)⟩ },
            [Event.mutex_lock, Event.hash_table Table.session_from_fd_table,
              Event.hash_table Table.session_from_id_table, Event.object_unref s,
              Event.mutex_unlock]) := by
      simp only [step, hrm]
    refine ⟨m1, [Event.mutex_lock, Event.hash_table Table.session_from_fd_table,
      Event.hash_table Table.session_from_id_table, Event.object_unref s,
      Event.mutex_unlock] ++ t, ?_, hhold, ?_, ?_⟩
    · rw [List.map_cons]
      exact run_cons_some hstep hrun
    · rw [refs_taken_append, ht1]
      rfl
    · rw [refs_released_append, ht2]
      rfl

/-- C12: for a list of sessions with pairwise distinct descriptor keys and
pairwise distinct id keys, no longer than max_connections, inserting all of
them into a newly constructed manager and then removing all of them, in any
order, runs to the end and leaves both indices empty; the calls of
g_object_ref made are exactly one per session, in the order of insertion, and
the calls of g_object_unref made are exactly one per session, in the order of
removal, so for every session the references taken and released are equal in
number, one each for a session of the list. -/
theorem reference_round_trip (new_session : NewSessionHandler) (max_connections : Nat)
    (sessions order : List SessionData)
    (hlen : sessions.length ≤ max_connections)
    (hfd : (sessions.map session_data_key_fd).Nodup)
    (hid : (sessions.map session_data_key_id).Nodup)
    (hperm : order.Perm sessions) :
    ∃ (manager : SessionManager) (trace : List Event),
      run new_session (sessions.map Op.insert ++ order.map Op.remove)
        (session_manager_new max_connections) = some (manager, trace) ∧
      (session_manager_size manager).ret = 0 ∧
      g_hash_table_size manager.session_from_id_table = 0 ∧
      (∀ k, g_hash_table_lookup manager.session_from_fd_table k = none) ∧
      (∀ k, g_hash_table_lookup manager.session_from_id_table k = none) ∧
      refs_taken trace = sessions.map some ∧
      refs_released trace = order ∧
      (refs_taken trace).length = sessions.length ∧
      (refs_released trace).length = sessions.length ∧
      (∀ s, (refs_taken trace).count (some s) = (refs_released trace).count s) ∧
      (∀ s ∈ sessions, (refs_taken trace).count (some s) = 1) := by
  obtain ⟨m1, t1, hrun1, hhold1, _, ht1, hr1⟩ :=
    insert_phase new_session sessions (session_manager_new max_connections) []
      (holds_new max_connections)
      (by rw [new_max_connections]; simpa using hlen) hfd hid
      (by intro s _ v hv; cases hv) (by intro s _ v hv; cases hv)
  rw [List.append_nil] at hhold1
  have hperm1 : order.Perm sessions.reverse :=
    List.Perm.trans hperm (List.Perm.symm (List.reverse_perm sessions))
  obtain ⟨m2, t2, hrun2, hhold2, ht2, hr2⟩ :=
    remove_phase new_session order m1 sessions.reverse hhold1
      (by rw [List.map_reverse]; exact List.nodup_reverse.mpr hfd)
      (by rw [List.map_reverse]; exact List.nodup_reverse.mpr hid)
      hperm1
  have htaken : refs_taken (t1 ++ t2) = sessions.map some := by
    rw [refs_taken_append, ht1, ht2, List.append_nil]
  have hreleased : refs_released (t1 ++ t2) = order := by
    rw [refs_released_append, hr1, hr2, List.nil_append]
  have hcount : ∀ s, (sessions.map some).count (some s) = sessions.count s :=
    count_some_map sessions
  refine ⟨m2, t1 ++ t2, run_append_some _ _ hrun1 hrun2, hhold2.2.2.1, hhold2.2.2.2,
    ?_, ?_, htaken, hreleased, ?_, ?_, ?_, ?_⟩
  · intro k
    cases hl : g_hash_table_lookup m2.session_from_fd_table k with
    | none => rfl
    | some v => exact absurd ((hhold2.1 k v).mp hl).1 (List.not_mem_nil v)
  · intro k
    cases hl : g_hash_table_lookup m2.session_from_id_table k with
    | none => rfl
    | some v => exact absurd ((hhold2.2.1 k v).mp hl).1 (List.not_mem_nil v)
  · rw [htaken, List.length_map]
  · rw [hreleased, List.Perm.length_eq hperm]
  · intro s
    rw [htaken, hreleased, hcount, List.Perm.count_eq hperm]
  · intro s hs
    rw [htaken, hcount]
    exact List.count_eq_one_of_mem (List.Nodup.of_map _ hfd) hs

/-- C12, at the scenario: A, B and C inserted at capacity 3 and removed in the
order B, C, A. -/
theorem reference_round_trip_witness :
    [session_A, session_B, session_C].length ≤ 3 ∧
    ([session_A, session_B, session_C].map session_data_key_fd).Nodup ∧
    ([session_A, session_B, session_C].map session_data_key_id).Nodup ∧
    [session_B, session_C, session_A].Perm [session_A, session_B, session_C] ∧
    ∃ (manager : SessionManager) (trace : List Event),
      run handler_ok
        ([session_A, session_B, session_C].map Op.insert
          ++ [session_B, session_C, session_A].map Op.remove)
        (session_manager_new 3) = some (manager, trace) ∧
      (session_manager_size manager).ret = 0 ∧
      g_hash_table_size manager.session_from_id_table = 0 ∧
      refs_taken trace = [some session_A, some session_B, some session_C] ∧
      refs_released trace = [session_B, session_C, session_A] :=
  have h := reference_round_trip handler_ok 3 [session_A, session_B, session_C]
    [session_B, session_C, session_A] (by decide) (by decide) (by decide) (by decide)
  ⟨by decide, by decide, by decide, by decide, h.elim fun manager hm =>
    hm.elim fun trace ht =>
      ⟨manager, trace, ht.1, ht.2.1, ht.2.2.1, ht.2.2.2.2.2.1, ht.2.2.2.2.2.2.1⟩⟩

end SessionRegistry
